import Mathlib

/-!
Verification of the ChainReads points-claiming and exchange-authorization
subsystem, shallowly embedded from the server source (Express route handlers,
the auth middleware, and the Postgres storage layer).

String-valued JavaScript operations are modelled over `List Char`
(`String.data`); `toLowerCase` is modelled on the Basic Latin range, which
covers every string the system compares (hex wallet addresses, claim keys,
binding types). Database rows are lists of records; the storage methods are
translated from `PostgresStorage`. On-chain and RPC results (transaction
receipts, block timestamps, price feeds, signature recovery) are oracle
inputs to the handlers, exactly as the handlers receive them from `ethers`
and `fetch`. Cryptographic hashing and ECDSA are modelled symbolically by a
free datatype, so two signing pipelines are equal exactly when they hash and
sign the same data the same way.
-/

namespace ChainReads

/-- The JavaScript whitespace class used by `String.prototype.trim`
(tab, LF, VT, FF, CR, space, NBSP, line/paragraph separator, BOM). -/
def isJsWhitespace (c : Char) : Bool :=
  c.toNat == 9 || c.toNat == 10 || c.toNat == 11 || c.toNat == 12 ||
  c.toNat == 13 || c.toNat == 32 || c.toNat == 160 ||
  c.toNat == 0x2028 || c.toNat == 0x2029 || c.toNat == 0xFEFF

/-- `String.prototype.toLowerCase` on one character, Basic Latin range. -/
def jsLowerChar (c : Char) : Char :=
  if 65 ≤ c.toNat ∧ c.toNat ≤ 90 then Char.ofNat (c.toNat + 32) else c

/-- `String.prototype.trim` on the character list: drop whitespace from
both ends. -/
def trimChars (l : List Char) : List Char :=
  ((l.dropWhile isJsWhitespace).reverse.dropWhile isJsWhitespace).reverse

/-- `address.trim()` from `auth.ts`. -/
def jsTrim (s : String) : String := String.mk (trimChars s.data)

/-- `address.toLowerCase()` from `auth.ts`. -/
def jsToLower (s : String) : String := String.mk (s.data.map jsLowerChar)

/-- `normalizeAddress` from `server/auth.ts`:
`if (!address) return ''; return address.trim().toLowerCase();`.
`none` models `null`/`undefined`; the empty string is the other falsy
string input. -/
def normalizeAddress : Option String → String
  | none => ""
  | some a => if a = "" then "" else jsToLower (jsTrim a)

/-- ASCII uppercase test (the letters `toLowerCase` maps away). -/
def isAsciiUpper (c : Char) : Bool :=
  decide (65 ≤ c.toNat) && decide (c.toNat ≤ 90)

/-- Whether a string contains an ASCII uppercase letter. -/
def hasUpperAscii (s : String) : Bool := s.data.any isAsciiUpper

/-- Whether a string begins with a JS whitespace character. -/
def firstIsWs (s : String) : Bool :=
  match s.data.head? with
  | some c => isJsWhitespace c
  | none => false

/-- Whether a string ends with a JS whitespace character. -/
def lastIsWs (s : String) : Bool :=
  match s.data.getLast? with
  | some c => isJsWhitespace c
  | none => false

/-! ## Signature Authenticator (`server/auth.ts`) -/

/-- Hex digit in the lowercase class `[a-f0-9]` used by the address and
private-key patterns (both strings are lowercased before the test or the
pattern carries the `i` flag). -/
def isLowerHexChar (c : Char) : Bool :=
  (decide (97 ≤ c.toNat) && decide (c.toNat ≤ 102)) ||
  (decide (48 ≤ c.toNat) && decide (c.toNat ≤ 57))

/-- `isValidEthereumAddress` from `auth.ts`: lowercase the input and test
the pattern `(0x)?` followed by exactly 40 hex characters. -/
def isValidEthereumAddress (address : String) : Bool :=
  let d := (jsToLower address).data
  (d.length == 40 && d.all isLowerHexChar) ||
  (d.length == 42 && (match d with
    | '0' :: 'x' :: rest => rest.all isLowerHexChar
    | _ => false))

/-- Decimal digit value, `none` for a non-digit. -/
def decDigit? (c : Char) : Option Nat :=
  if 48 ≤ c.toNat ∧ c.toNat ≤ 57 then some (c.toNat - 48) else none

/-- Hex digit value (either case), `none` for a non-hex character. -/
def hexDigit? (c : Char) : Option Nat :=
  if 48 ≤ c.toNat ∧ c.toNat ≤ 57 then some (c.toNat - 48)
  else if 97 ≤ c.toNat ∧ c.toNat ≤ 102 then some (c.toNat - 87)
  else if 65 ≤ c.toNat ∧ c.toNat ≤ 70 then some (c.toNat - 55)
  else none

/-- Fold the longest leading digit run; `none` when no digit leads. -/
def digitsValue (digit? : Char → Option Nat) (base : Nat) : List Char → Option Nat
  | [] => none
  | c :: rest =>
    match digit? c with
    | none => none
    | some d =>
      match digitsValue digit? base rest with
      | none => some d
      | some v =>
        -- the recursive call consumed `rest`; recompute place value from the
        -- run length it accepted
        some (d * base ^ (leadingDigitCount digit? rest) + v)
where
  /-- Length of the leading run accepted by `digit?`. -/
  leadingDigitCount (digit? : Char → Option Nat) : List Char → Nat
    | [] => 0
    | c :: rest => match digit? c with
      | none => 0
      | some _ => leadingDigitCount digit? rest + 1

/-- `parseInt` from JavaScript as used on the `x-timestamp` header: skip
leading whitespace, read an optional sign, detect a `0x`/`0X` hex literal,
otherwise read leading decimal digits; `NaN` (here `none`) when no digit is
found. -/
def jsParseInt (s : String) : Option Int :=
  let l := s.data.dropWhile isJsWhitespace
  let (sign, l1) : Int × List Char :=
    match l with
    | '-' :: rest => (-1, rest)
    | '+' :: rest => (1, rest)
    | _ => (1, l)
  match l1 with
  | '0' :: 'x' :: rest => (digitsValue hexDigit? 16 rest).map (fun v => sign * v)
  | '0' :: 'X' :: rest => (digitsValue hexDigit? 16 rest).map (fun v => sign * v)
  | _ => (digitsValue decDigit? 10 l1).map (fun v => sign * v)

/-- Outcome of the `requireWalletAuth` middleware. -/
inductive AuthOutcome where
  | ok (walletAddress : String)
  | err (status : Nat) (msg : String)
deriving DecidableEq, Repr

/-- `requireWalletAuth` from `auth.ts`. `sigValid` is the oracle result of
`verifyWalletSignature` (ECDSA recovery over the challenge message), `nowMs`
is `Date.now()`. Header values are strings; a missing header is the empty
string under the falsy test the code performs. -/
def requireWalletAuth (walletAddress signature timestamp : String)
    (nowMs : Int) (sigValid : Bool) : AuthOutcome :=
  if walletAddress = "" || signature = "" || timestamp = "" then
    .err 401 "Authentication required"
  else if !isValidEthereumAddress walletAddress then
    .err 401 "Invalid wallet address format"
  else
    match jsParseInt timestamp with
    | none => .err 401 "Invalid timestamp"
    | some requestTime =>
      if 5 * 60 * 1000 < |nowMs - requestTime| then
        .err 401 "Signature expired"
      else if !sigValid then
        .err 401 "Invalid signature"
      else
        .ok (normalizeAddress (some walletAddress))

/-! ## Symbolic hashing and signing

`keccak256` and ECDSA are modelled by free constructors: two digests are
equal exactly when they were built the same way, which is the standard
symbolic (collision-free) model of a cryptographic hash. `ethSignedWrap`
models the EIP-191 `personal_sign` step (`keccak256("\x19Ethereum Signed
Message:\n32" ++ digest)`), which produces a digest distinct from its
argument. -/

/-- A 32-byte digest, symbolically. `solidityPacked` is
`ethers.solidityPackedKeccak256(['address','uint256','bytes32','uint256'],
[walletAddress, points, nonce, expiration])`; `ethSignedWrap d` is the
digest of the Ethereum-signed-message envelope around `d`. -/
inductive Digest where
  | solidityPacked (walletAddress : String) (points : Int) (nonce : String)
      (expiration : Nat)
  | ethSignedWrap (d : Digest)
deriving DecidableEq, Repr

/-- An ECDSA signature, symbolically: the signing key and the digest that
was signed. -/
inductive Sig where
  | ecdsa (privateKey : String) (digest : Digest)
deriving DecidableEq, Repr

/-! ## Data model (`shared/schema.ts`) and storage (`PostgresStorage`)

Timestamps are modelled as UTC day indices where only the day matters
(claim rows) and as opaque naturals elsewhere. `lastClaimDate`, row UUIDs
for claims, and the password column play no role in any claim and are not
modelled. -/

/-- `users` table row; `username` stores the normalized wallet address. -/
structure User where
  id : Nat
  username : String
  tokenBalance : Int
  dailyClaims : Int
deriving DecidableEq, Repr

/-- `user_claims` table row; `claimedDay` is the UTC day of `claimedAt`. -/
structure UserClaim where
  userId : Nat
  articleId : String
  tokensEarned : Int
  claimedDay : Nat
deriving DecidableEq, Repr

/-- `ip_bindings` table row. -/
structure IpBinding where
  ipAddress : String
  bindingType : String
  walletAddress : String
  boundAt : Nat
deriving DecidableEq, Repr

/-- `predictions` table row. Prices are exact rationals. -/
structure Prediction where
  id : Nat
  walletAddress : String
  predictionId : String
  symbol : String
  direction : String
  betAmount : Int
  entryPrice : Rat
  days : Nat
  multiplier : Int
  status : String
  settlementDate : Nat
  exitPrice : Option Rat
  payout : Option Int
deriving DecidableEq, Repr

/-- The database state. `nextId` supplies fresh user and prediction ids
(`gen_random_uuid()` in the schema). -/
structure DbState where
  users : List User
  claims : List UserClaim
  bindings : List IpBinding
  predictions : List Prediction
  nextId : Nat
deriving DecidableEq, Repr

/-- `PostgresStorage.getUserByUsername`: `findFirst` on the username. -/
def getUserByUsername (s : DbState) (username : String) : Option User :=
  s.users.find? (fun u => u.username == username)

/-- `PostgresStorage.createUser`: insert a row; `tokenBalance` and
`dailyClaims` default to 0 in the schema. -/
def createUser (s : DbState) (username : String) : User × DbState :=
  let u : User := { id := s.nextId, username := username,
                    tokenBalance := 0, dailyClaims := 0 }
  (u, { s with users := s.users ++ [u], nextId := s.nextId + 1 })

/-- `PostgresStorage.updateUserTokens`: unconditional overwrite of balance
and counter for the given user id. -/
def updateUserTokens (s : DbState) (userId : Nat) (tokenBalance dailyClaims : Int) :
    DbState :=
  { s with users := s.users.map (fun u =>
      if u.id == userId then
        { u with tokenBalance := tokenBalance, dailyClaims := dailyClaims }
      else u) }

/-- `PostgresStorage.getUserClaimForArticle`: `findFirst` on
`(userId, articleId)`. -/
def getUserClaimForArticle (s : DbState) (userId : Nat) (articleId : String) :
    Option UserClaim :=
  s.claims.find? (fun c => c.userId == userId && c.articleId == articleId)

/-- `PostgresStorage.createUserClaim`: insert a claim row. -/
def createUserClaim (s : DbState) (c : UserClaim) : DbState :=
  { s with claims := s.claims ++ [c] }

/-- `PostgresStorage.getUserDailyClaims`: claims of the user whose
`claimedAt` falls inside the given UTC day. -/
def getUserDailyClaims (s : DbState) (userId : Nat) (day : Nat) : List UserClaim :=
  s.claims.filter (fun c => c.userId == userId && c.claimedDay == day)

/-- `PostgresStorage.getIpBinding`: `findFirst` on `(ipAddress, bindingType)`. -/
def getIpBinding (s : DbState) (ipAddress bindingType : String) : Option IpBinding :=
  s.bindings.find? (fun b => b.ipAddress == ipAddress && b.bindingType == bindingType)

/-- `PostgresStorage.createIpBinding`: insert with `onConflictDoUpdate` on
the `(ipAddress, bindingType)` key, the conflict branch overwriting
`walletAddress` and `boundAt`. -/
def createIpBinding (s : DbState) (b : IpBinding) : DbState :=
  if s.bindings.any (fun x => x.ipAddress == b.ipAddress &&
      x.bindingType == b.bindingType) then
    { s with bindings := s.bindings.map (fun x =>
        if x.ipAddress == b.ipAddress && x.bindingType == b.bindingType then
          { x with walletAddress := b.walletAddress, boundAt := b.boundAt }
        else x) }
  else
    { s with bindings := s.bindings ++ [b] }

/-- `PostgresStorage.getWalletBindings`: rows of one binding type whose
lowercased wallet matches the lowercased argument. -/
def getWalletBindings (s : DbState) (walletAddress bindingType : String) :
    List IpBinding :=
  s.bindings.filter (fun b => jsToLower b.walletAddress == jsToLower walletAddress &&
    b.bindingType == bindingType)

/-- `PostgresStorage.clearIpBindingsForWallet`: delete rows whose lowercased
wallet matches. -/
def clearIpBindingsForWallet (s : DbState) (walletAddress : String) : DbState :=
  { s with bindings := s.bindings.filter (fun b =>
      !(jsToLower b.walletAddress == jsToLower walletAddress)) }

/-- `PostgresStorage.clearAllIpBindings`. -/
def clearAllIpBindings (s : DbState) : DbState :=
  { s with bindings := [] }

/-- `PostgresStorage.createPrediction`: insert a row with a fresh id. -/
def createPrediction (s : DbState) (p : Nat → Prediction) : Prediction × DbState :=
  let row := p s.nextId
  let s1 := { s with predictions := s.predictions ++ [row], nextId := s.nextId + 1 }
  (row, s1)

/-- `PostgresStorage.getUserPredictions` (the handler reads at most 100,
more than any state reached in the claims needs). -/
def getUserPredictions (s : DbState) (walletAddress : String) : List Prediction :=
  s.predictions.filter (fun p => p.walletAddress == walletAddress)

/-- `PostgresStorage.updatePredictionStatus`: set status, exit price and
payout of one row. -/
def updatePredictionStatus (s : DbState) (id : Nat) (status : String)
    (exitPrice : Rat) (payout : Int) : DbState :=
  { s with predictions := s.predictions.map (fun p =>
      if p.id == id then
        { p with status := status, exitPrice := some exitPrice,
                 payout := some payout }
      else p) }

/-- `PostgresStorage.deletePrediction`. -/
def deletePrediction (s : DbState) (id : Nat) : DbState :=
  { s with predictions := s.predictions.filter (fun p => !(p.id == id)) }

/-- The get-or-create-user step shared by the claim, admin-grant, connect
and profile handlers: look up by username, else create and zero the balance
(`createUser` then `updateUserTokens(user.id, 0, 0)` then re-fetch). -/
def getOrCreateUser (s : DbState) (username : String) : User × DbState :=
  match getUserByUsername s username with
  | some u => (u, s)
  | none =>
    let (u, s1) := createUser s username
    let s2 := updateUserTokens s1 u.id 0 0
    match getUserByUsername s2 username with
    | some u2 => (u2, s2)
    | none => (u, s2)

/-! ## Route handlers (`server/routes.ts`)

Each handler is a function from the database state and its request-level
inputs to a response and the successor state. Results of external calls the
handler awaits (`checkWalletHistory`, RPC receipts, price feeds) are
parameters, reflecting exactly what the handler branches on. -/

/-- An HTTP JSON response: success payload or `status`/`error` pair. -/
inductive ApiResult (α : Type) where
  | ok (val : α)
  | err (status : Nat) (msg : String)
deriving DecidableEq, Repr

/-- `String.prototype.startsWith` on character lists. -/
def charsStart : List Char → List Char → Bool
  | _, [] => true
  | [], _ :: _ => false
  | a :: as, b :: bs => a == b && charsStart as bs

/-- `s.startsWith(pat)`. -/
def strStarts (s pat : String) : Bool := charsStart s.data pat.data

/-- `String.prototype.toUpperCase` on one character, Basic Latin range. -/
def jsUpperChar (c : Char) : Char :=
  if 97 ≤ c.toNat ∧ c.toNat ≤ 122 then Char.ofNat (c.toNat - 32) else c

/-- `symbol.toUpperCase()`. -/
def jsToUpper (s : String) : String := String.mk (s.data.map jsUpperChar)

/-- Success payload of `POST /api/claim-points`. -/
structure SectionClaimOk where
  pointsEarned : Int
  newBalance : Int
  totalToday : Nat
deriving DecidableEq, Repr

/-- `POST /api/claim-points` (section claim, 35 points, one per section per
UTC day). `histValid` is the `checkWalletHistory(...).valid` oracle (its
fail-open branch already folded in by `checkWalletHistory` itself), `day`
the current UTC day. The `(x || 0)` guards in the source are identities on
integers and are not repeated here. -/
def claimPoints (s : DbState) (sectionName walletAddress : String)
    (histValid : Bool) (clientIp : String) (day : Nat) :
    ApiResult SectionClaimOk × DbState :=
  if !(sectionName == "trading" || sectionName == "airdrop") then
    (.err 400 "Invalid section", s)
  else if !histValid then
    (.err 403 "Wallet requirements not met", s)
  else
    let (user, s1) := getOrCreateUser s walletAddress
    let existingBinding := getIpBinding s1 clientIp sectionName
    let bindingConflict :=
      match existingBinding with
      | some b => !(normalizeAddress (some b.walletAddress)
          == normalizeAddress (some walletAddress))
      | none => false
    if bindingConflict then
      (.err 403 "This IP address is already being used by another wallet. Each IP can only be used by one wallet.", s1)
    else
      let walletBindings := getWalletBindings s1 walletAddress sectionName
      if 5 ≤ walletBindings.length ∧
          ¬(walletBindings.any (fun b => b.ipAddress == clientIp) = true) then
        (.err 403 "Your wallet is already registered with 5 different IPs (max limit). Please use one of your existing devices.", s1)
      else
        let articleId := sectionName ++ "-" ++ toString day
        match getUserClaimForArticle s1 user.id articleId with
        | some _ =>
          (.err 400 "You have already claimed points for this section today", s1)
        | none =>
          let pointsEarned : Int := 35
          let s2 := createUserClaim s1 { userId := user.id, articleId := articleId, tokensEarned := pointsEarned, claimedDay := day }
          let newBalance := user.tokenBalance + pointsEarned
          let s3 := updateUserTokens s2 user.id newBalance (user.dailyClaims + 1)
          let s4 :=
            if existingBinding.isNone then
              createIpBinding s3 { ipAddress := clientIp, bindingType := sectionName, walletAddress := normalizeAddress (some walletAddress), boundAt := day }
            else s3
          let todayClaims := getUserDailyClaims s4 user.id day
          (.ok { pointsEarned := pointsEarned, newBalance := newBalance, totalToday := todayClaims.length }, s4)

/-- Success payload of `POST /api/news/claim`. -/
structure NewsClaimOk where
  pointsEarned : Int
  newBalance : Int
  claimedCount : Nat
  remaining : Int
deriving DecidableEq, Repr

/-- `POST /api/news/claim` (per-article news claim, 10 points, max 3 per
UTC day). -/
def newsClaim (s : DbState) (walletAddress articleId : String)
    (histValid : Bool) (clientIp : String) (day : Nat) :
    ApiResult NewsClaimOk × DbState :=
  if articleId = "" then
    (.err 400 "Article ID required", s)
  else if !histValid then
    (.err 403 "Wallet requirements not met", s)
  else
    let (user, s1) := getOrCreateUser s walletAddress
    let existingBinding := getIpBinding s1 clientIp "news"
    let bindingConflict :=
      match existingBinding with
      | some b => !(normalizeAddress (some b.walletAddress)
          == normalizeAddress (some walletAddress))
      | none => false
    if bindingConflict then
      (.err 403 "This IP address is already being used by another wallet. Each IP can only be used by one wallet.", s1)
    else
      let walletBindings := getWalletBindings s1 walletAddress "news"
      if 5 ≤ walletBindings.length ∧
          ¬(walletBindings.any (fun b => b.ipAddress == clientIp) = true) then
        (.err 403 "Your wallet is already registered with 5 different IPs (max limit). Please use one of your existing devices.", s1)
      else
        match getUserClaimForArticle s1 user.id ("news-" ++ articleId) with
        | some _ => (.err 400 "You have already claimed this article", s1)
        | none =>
          let todayClaims := getUserDailyClaims s1 user.id day
          let newsClaimsToday := todayClaims.filter
            (fun c => strStarts c.articleId "news-")
          if 3 ≤ newsClaimsToday.length then
            (.err 400 "You have already claimed 3 news articles today", s1)
          else
            let pointsEarned : Int := 10
            let s2 := createUserClaim s1 { userId := user.id, articleId := "news-" ++ articleId, tokensEarned := pointsEarned, claimedDay := day }
            let newBalance := user.tokenBalance + pointsEarned
            let s3 := updateUserTokens s2 user.id newBalance (user.dailyClaims + 1)
            let s4 :=
              if existingBinding.isNone then
                createIpBinding s3 { ipAddress := clientIp, bindingType := "news", walletAddress := normalizeAddress (some walletAddress), boundAt := day }
              else s3
            (.ok { pointsEarned := pointsEarned, newBalance := newBalance, claimedCount := newsClaimsToday.length + 1, remaining := 2 - (newsClaimsToday.length : Int) }, s4)

/-- `POST /api/admin/grant-points`. `secretOk` is the admin-secret
comparison result. -/
def adminGrantPoints (s : DbState) (secretOk : Bool) (walletAddress : String)
    (points : Int) : ApiResult Int × DbState :=
  if !secretOk then
    (.err 401 "Unauthorized", s)
  else if walletAddress = "" || points == 0 then
    (.err 400 "Wallet address and points required", s)
  else if points ≤ 0 then
    (.err 400 "Points must be a positive number", s)
  else if 100000 < points then
    (.err 400 "Maximum 100,000 points per grant", s)
  else
    let normalized := normalizeAddress (some walletAddress)
    let (user, s1) := getOrCreateUser s normalized
    let newBalance := user.tokenBalance + points
    (.ok newBalance, updateUserTokens s1 user.id newBalance user.dailyClaims)

/-- `POST /api/wallet/connect`: get-or-create the user for the lowercased
address, then check/create the `predictions` IP binding. The binding
comparison and the stored wallet use the raw `address` from the body, as
the source does. -/
def walletConnect (s : DbState) (address clientIp : String) (now : Nat) :
    ApiResult Int × DbState :=
  if address = "" then
    (.err 400 "Wallet address required", s)
  else
    let normalizedAddress := jsToLower address
    let (user, s1) := getOrCreateUser s normalizedAddress
    match getIpBinding s1 clientIp "predictions" with
    | some b =>
      if !(b.walletAddress == address) then
        (.err 403 "This IP address is already being used by another wallet. Please use a different device or contact support.", s1)
      else
        (.ok user.tokenBalance, s1)
    | none =>
      (.ok user.tokenBalance, createIpBinding s1 { ipAddress := clientIp, bindingType := "predictions", walletAddress := address, boundAt := now })

/-- `GET /api/wallet/profile`: same get-or-create and `predictions`-binding
logic as `walletConnect` (the profile route also compares and stores the raw
query-string wallet). -/
def walletProfile (s : DbState) (walletAddress clientIp : String) (now : Nat) :
    ApiResult Int × DbState :=
  if walletAddress = "" then
    (.err 400 "Wallet address required", s)
  else
    let normalizedAddress := jsToLower walletAddress
    let (user, s1) := getOrCreateUser s normalizedAddress
    match getIpBinding s1 clientIp "predictions" with
    | some b =>
      if !(b.walletAddress == walletAddress) then
        (.err 403 "This IP address is already being used by another wallet. Please use a different device or contact support.", s1)
      else
        (.ok user.tokenBalance, s1)
    | none =>
      (.ok user.tokenBalance, createIpBinding s1 { ipAddress := clientIp, bindingType := "predictions", walletAddress := walletAddress, boundAt := now })

/-- `POST /api/clear-ip-bindings`: with a (truthy) wallet in the body clear
that wallet's bindings, otherwise clear all bindings. -/
def clearIpBindings (s : DbState) (walletAddress : Option String) :
    ApiResult Unit × DbState :=
  match walletAddress with
  | some w =>
    if w = "" then (.ok (), clearAllIpBindings s)
    else (.ok (), clearIpBindingsForWallet s w)
  | none => (.ok (), clearAllIpBindings s)

/-- Hex digit of either case (the `[a-f0-9]` class with the `i` flag). -/
def isHexCharCI (c : Char) : Bool :=
  isLowerHexChar c || (decide (65 ≤ c.toNat) && decide (c.toNat ≤ 70))

/-- The private-key pattern `(0x)?[a-f0-9]{64}` with the `i` flag. -/
def isPrivateKeyFormat (k : String) : Bool :=
  let d := k.data
  (d.length == 64 && d.all isHexCharCI) ||
  (d.length == 66 && (match d with
    | '0' :: x :: rest => (x == 'x' || x == 'X') && rest.all isHexCharCI
    | _ => false))

/-- Pad a character list on the left to the given width. -/
def padLeftChars (l : List Char) (width : Nat) (c : Char) : List Char :=
  List.replicate (width - l.length) c ++ l

/-- The voucher nonce
`0x` + `timestamp.toString(16).padStart(16, '0')` + 48 random hex chars. -/
def mkNonce (timestampMs : Nat) (randomPart : String) : String :=
  "0x" ++ String.mk (padLeftChars (Nat.toDigits 16 timestampMs) 16 '0') ++ randomPart

/-- Success payload of `POST /api/exchange/sign`. -/
structure SignOk where
  nonce : String
  expiration : Nat
  signature : Sig
deriving DecidableEq, Repr

/-- `POST /api/exchange/sign`. `walletAddress` is the authenticated
(normalized) address set by `requireWalletAuth`; `dailyExchanged` is the
`dailyExchanges` contract read (`none` when the contract address is unset or
the read threw — both skip the check); `randomPart` is the hex encoding of
`crypto.randomBytes(24)`; `privateKey` is `BACKEND_WALLET_PRIVATE_KEY`.
The signature is `new SigningKey(privateKey).sign(messageHash)` where
`messageHash = solidityPackedKeccak256(['address','uint256','bytes32',
'uint256'], [walletAddress, points, nonce, expiration])` — the digest is
signed directly, with no `personal_sign` wrapping step. -/
def exchangeSign (s : DbState) (walletAddress : String) (tokenId points : Int)
    (dailyExchanged : Option Bool) (nowMs : Nat) (randomPart : String)
    (privateKey : Option String) : ApiResult SignOk × DbState :=
  if tokenId == 0 || points == 0 then
    (.err 400 "Missing required fields", s)
  else
    match getUserByUsername s walletAddress with
    | none => (.err 404 "User not found", s)
    | some user =>
      if user.tokenBalance < points then
        (.err 400 "Insufficient points", s)
      else if points < 300 then
        (.err 400 "Minimum 300 points required", s)
      else if 5000 < points then
        (.err 400 "Maximum 5,000 points per exchange", s)
      else if dailyExchanged == some true then
        (.err 400 "You can only exchange once per day", s)
      else
        let nonce := mkNonce nowMs randomPart
        let expiration := nowMs / 1000 + 3600
        match privateKey with
        | none => (.err 500 "Service temporarily unavailable", s)
        | some key =>
          if !isPrivateKeyFormat key then
            (.err 500 "Service configuration error", s)
          else
            let messageHash := Digest.solidityPacked walletAddress points nonce expiration
            let signature := Sig.ecdsa key messageHash
            (.ok { nonce := nonce, expiration := expiration, signature := signature }, s)

/-- A transaction receipt as returned by `provider.getTransactionReceipt`. -/
structure Receipt where
  status : Int
  toAddr : Option String
  sender : Option String
  blockNumber : Nat
deriving DecidableEq, Repr

/-- The `receipt.to?.toLowerCase() === contractAddress.toLowerCase()`
check of the confirm handler (false when `to` is null). -/
def toMatches (receipt : Receipt) (contract : String) : Bool :=
  match receipt.toAddr with
  | some t => jsToLower t == jsToLower contract
  | none => false

/-- The `receipt.from?.toLowerCase() === walletAddress.toLowerCase()`
check of the confirm handler (false when `from` is null). -/
def senderMatches (receipt : Receipt) (walletAddress : String) : Bool :=
  match receipt.sender with
  | some f => jsToLower f == jsToLower walletAddress
  | none => false

/-- `Date.now() / 1000 - (block?.timestamp || 0)`: the transaction age in
seconds used by the confirm handler. -/
def txAgeOf (blockTs : Nat → Option Nat) (receipt : Receipt) (nowMs : Nat) : Rat :=
  (nowMs : Rat) / 1000 - (((blockTs receipt.blockNumber).getD 0 : Nat) : Rat)

/-- `POST /api/exchange/confirm`. `rpcOk` is whether the receipt fetch
itself succeeded (its `catch` returns 500); `receipt?` the fetched receipt;
`contractAddress` the configured exchange contract; `blockTs` the
`getBlock(n).timestamp` oracle (`block?.timestamp || 0` on a missing
block); `nowMs` is `Date.now()`. No record of consumed transaction hashes
exists anywhere in the state: the only replay guard is the 5-minute
transaction-age window. -/
def exchangeConfirm (s : DbState) (rawAddress : String) (points : Int)
    (txHash : String) (rpcOk : Bool) (receipt? : Option Receipt)
    (contractAddress : Option String) (blockTs : Nat → Option Nat)
    (nowMs : Nat) : ApiResult Int × DbState :=
  let walletAddress := normalizeAddress (some rawAddress)
  if walletAddress = "" || points == 0 || txHash = "" then
    (.err 400 "Missing required fields", s)
  else if !rpcOk then
    (.err 500 "Failed to verify transaction", s)
  else
    match receipt? with
    | none => (.err 400 "Transaction not found on blockchain", s)
    | some receipt =>
      if !(receipt.status == 1) then
        (.err 400 "Transaction failed on blockchain", s)
      else
        match contractAddress with
        | none => (.err 500 "Contract address not configured", s)
        | some contract =>
          if !(toMatches receipt contract) then
            (.err 400 "Transaction not for correct contract", s)
          else
            if !(senderMatches receipt walletAddress) then
              (.err 400 "Transaction from wrong wallet", s)
            else
              if 300 < txAgeOf blockTs receipt nowMs then
                (.err 400 "Transaction too old", s)
              else
                match getUserByUsername s walletAddress with
                | none => (.err 404 "User not found", s)
                | some user =>
                  if user.tokenBalance < points then
                    (.err 400 "Insufficient points", s)
                  else
                    let newBalance := max 0 (user.tokenBalance - points)
                    (.ok newBalance,
                      updateUserTokens s user.id newBalance user.dailyClaims)

/-- `'d'`-stripping in `daysStr.replace('d', '')`: `String.replace` with a
string pattern replaces the first occurrence only. -/
def removeFirstChar : List Char → Char → List Char
  | [], _ => []
  | a :: as, c => if a == c then as else a :: removeFirstChar as c

/-- The prediction row inserted by `POST /api/predictions/bet`
(`storage.createPrediction({...})`): pending status, stake deducted
immediately afterwards, exit price and payout unset. -/
def betRow (walletAddress predictionId direction : String) (amount : Int)
    (symbolUpper : String) (days : Nat) (multiplier : Int)
    (currentPrice : Rat) (settlementDate : Nat) (id : Nat) : Prediction :=
  { id := id, walletAddress := walletAddress, predictionId := predictionId,
    symbol := symbolUpper, direction := direction, betAmount := amount,
    entryPrice := currentPrice, days := days, multiplier := multiplier,
    status := "pending", settlementDate := settlementDate, exitPrice := none,
    payout := none }

/-- Success payload of `POST /api/predictions/bet`. -/
structure BetOk where
  prediction : Prediction
  newBalance : Int
deriving DecidableEq, Repr

/-- `POST /api/predictions/bet`. `walletAddress` is the authenticated
address; `price?` the CoinGecko price fetch result (`none` for a failed
fetch or missing field); `debitOk` whether the balance write succeeded (its
`catch` deletes the created prediction and returns 500); `nowMs` is the
bet time, with the settlement date `days` days later. -/
def placeBet (s : DbState) (walletAddress predictionId direction : String)
    (amount : Int) (histValid : Bool) (price? : Option Rat) (nowMs : Nat)
    (debitOk : Bool) : ApiResult BetOk × DbState :=
  if predictionId = "" || direction = "" || amount == 0 then
    (.err 400 "Missing required fields", s)
  else if amount ≤ 0 then
    (.err 400 "Invalid bet amount", s)
  else if !(amount % 2 == 0) then
    (.err 400 "Bet amount must be an even number", s)
  else if amount < 10 then
    (.err 400 "Minimum bet is 10 points", s)
  else if 10000 < amount then
    (.err 400 "Maximum bet is 10,000 points", s)
  else if !(direction == "up" || direction == "down") then
    (.err 400 "Direction must be 'up' or 'down'", s)
  else if !histValid then
    (.err 403 "Wallet requirements not met", s)
  else
    match getUserByUsername s walletAddress with
    | none => (.err 404 "User not found", s)
    | some user =>
      if user.tokenBalance < amount then
        (.err 400 "Insufficient points", s)
      else
        let parts := predictionId.splitOn "-"
        let symbol := parts.getD 0 ""
        let daysStr := parts.getD 1 ""
        if symbol = "" || daysStr = "" then
          (.err 400 "Invalid prediction ID format", s)
        else
          let days? := jsParseInt (String.mk (removeFirstChar daysStr.data 'd'))
          let daysOk := match days? with
            | some d => d == 3 || d == 5 || d == 7
            | none => false
          if !daysOk then
            (.err 400 "Invalid prediction duration", s)
          else
            let days : Nat := (days?.getD 0).toNat
            let multiplier : Int := if days == 3 then 2 else if days == 5 then 3 else 4
            match price? with
            | none => (.err 503 "Unable to fetch current price. Please try again.", s)
            | some currentPrice =>
              if currentPrice ≤ 0 then
                (.err 503 "Unable to fetch current price. Please try again.", s)
              else
                let settlementDate := nowMs + days * 86400000
                let existingBets := getUserPredictions s walletAddress
                let duplicateBet := existingBets.find? (fun bet =>
                  bet.predictionId == predictionId && bet.status == "pending" &&
                  bet.direction == direction)
                match duplicateBet with
                | some _ =>
                  (.err 400 "You already have an active bet on this prediction", s)
                | none =>
                  let (prediction, s1) := createPrediction s
                    (betRow walletAddress predictionId direction amount
                      (jsToUpper symbol) days multiplier currentPrice
                      settlementDate)
                  if debitOk then
                    (.ok { prediction := prediction, newBalance := user.tokenBalance - amount },
                      updateUserTokens s1 user.id (user.tokenBalance - amount)
                        user.dailyClaims)
                  else
                    (.err 500 "Failed to process bet. Your points were not deducted.",
                      deletePrediction s1 prediction.id)

/-- One iteration of the `settlePredictions` loop for one pending
prediction (`routes.ts`, the `for (const pred of pending)` body).
`prices` is the validated CoinGecko price map (`currentPrices`), `now` the
pass timestamp, `writeOk` whether `updateUserTokens` for the payout
succeeded (its `catch` leaves the prediction pending). The source reads
`currentPrices[pred.symbol]` and skips on a falsy or missing price. -/
def settleOne (s : DbState) (pred : Prediction) (prices : String → Option Rat)
    (now : Nat) (writeOk : Bool) : DbState :=
  if now < pred.settlementDate then s
  else
    match prices pred.symbol with
    | none => s
    | some exitPrice =>
      if exitPrice == 0 then s
      else if pred.entryPrice ≤ 0 then s
      else
        let priceChange : Rat := (exitPrice - pred.entryPrice) / pred.entryPrice * 100
        let won := (pred.direction == "up" && decide (5 ≤ priceChange)) ||
          (pred.direction == "down" && decide (priceChange ≤ -5))
        let status := if won then "won" else "lost"
        let payout : Int := if won then pred.betAmount * pred.multiplier else 0
        if won then
          match getUserByUsername s pred.walletAddress with
          | none => s
          | some user =>
            let newBalance := user.tokenBalance + payout
            if newBalance < 0 then s
            else if !writeOk then s
            else
              updatePredictionStatus
                (updateUserTokens s user.id newBalance user.dailyClaims)
                pred.id status exitPrice payout
        else
          updatePredictionStatus s pred.id status exitPrice payout

/-! ## The system as a transition relation

One constructor per state-touching operation, each carrying the
request-level and oracle inputs of the corresponding handler. -/

/-- A state-mutating operation of the system. -/
inductive Op where
  | opClaimPoints (sectionName wallet ip : String) (histValid : Bool) (day : Nat)
  | opNewsClaim (wallet articleId ip : String) (histValid : Bool) (day : Nat)
  | opAdminGrant (secretOk : Bool) (wallet : String) (points : Int)
  | opWalletConnect (address ip : String) (now : Nat)
  | opWalletProfile (wallet ip : String) (now : Nat)
  | opClearIpBindings (wallet : Option String)
  | opPlaceBet (wallet predictionId direction : String) (amount : Int)
      (histValid : Bool) (price : Option Rat) (nowMs : Nat) (debitOk : Bool)
  | opExchangeSign (wallet : String) (tokenId points : Int)
      (dailyExchanged : Option Bool) (nowMs : Nat) (randomPart : String)
      (privateKey : Option String)
  | opExchangeConfirm (rawAddress : String) (points : Int) (txHash : String)
      (rpcOk : Bool) (receipt : Option Receipt) (contract : Option String)
      (blockTs : Nat → Option Nat) (nowMs : Nat)
  | opSettleStep (predId : Nat) (prices : String → Option Rat) (now : Nat)
      (writeOk : Bool)

/-- State successor of one operation (the handler's response is dropped).
`opSettleStep` settles the pending prediction with the given id, as the
settlement loop does for each element of `getPendingPredictions()`. -/
def applyOp (s : DbState) : Op → DbState
  | .opClaimPoints sec w ip h d => (claimPoints s sec w h ip d).2
  | .opNewsClaim w aid ip h d => (newsClaim s w aid h ip d).2
  | .opAdminGrant ok w p => (adminGrantPoints s ok w p).2
  | .opWalletConnect a ip n => (walletConnect s a ip n).2
  | .opWalletProfile w ip n => (walletProfile s w ip n).2
  | .opClearIpBindings w => (clearIpBindings s w).2
  | .opPlaceBet w pid dir amt h pr n dk => (placeBet s w pid dir amt h pr n dk).2
  | .opExchangeSign w tid p de n r k => (exchangeSign s w tid p de n r k).2
  | .opExchangeConfirm raw p tx ok rc ct bt n =>
    (exchangeConfirm s raw p tx ok rc ct bt n).2
  | .opSettleStep pid prices now wk =>
    match s.predictions.find? (fun p => p.id == pid && p.status == "pending") with
    | none => s
    | some pred => settleOne s pred prices now wk

/-- Run a sequence of operations. -/
def runOps (s : DbState) (ops : List Op) : DbState := ops.foldl applyOp s

/-- The balance invariant: every user row has a non-negative balance. -/
def allBalancesNonneg (s : DbState) : Bool :=
  s.users.all (fun u => decide (0 ≤ u.tokenBalance))

/-- A wallet address used by the concrete scenarios. -/
def addrA : String := "0xaaaaaaaaaaaaaaaaaaaaaaaaaaaaaaaaaaaaaaaa"

/-- A user holding 1000 points. -/
def userA : User :=
  { id := 0, username := addrA, tokenBalance := 1000, dailyClaims := 0 }

/-- A one-user database. -/
def dbA : DbState :=
  { users := [userA], claims := [], bindings := [], predictions := [], nextId := 1 }

/-- A successful receipt for the exchange contract `0xcccc` sent by `addrA`. -/
def receiptA : Receipt :=
  { status := 1, toAddr := some "0xCCCC", sender := some addrA, blockNumber := 7 }

/-- A mixed workload: news claim, admin grant, bet, exchange confirm,
settlement of the bet, binding clear. -/
def opsC4 : List Op :=
  [Op.opNewsClaim addrA "a1" "1.2.3.4" true 100,
   Op.opAdminGrant true addrA 50,
   Op.opPlaceBet addrA "btc-3d" "up" 100 true (some 50000) 0 true,
   Op.opExchangeConfirm addrA 300 "0xhash" true (some receiptA) (some "0xcccc")
     (fun _ => some 599990) 600000000,
   Op.opSettleStep 1 (fun sym => if sym == "BTC" then some 52500 else none)
     999999999 true,
   Op.opClearIpBindings none]

/-! ## IP-binding immutability (C2)

The `(ipAddress, bindingType)` pair is the table's primary key, so a
reachable state has at most one row per key; `keyUniqueB` captures that
invariant for the list model. -/

/-- At most one binding row per `(ipAddress, bindingType)` key. -/
def keyUniqueB : List IpBinding → Bool
  | [] => true
  | b :: rest =>
    rest.all (fun x => !(x.ipAddress == b.ipAddress && x.bindingType == b.bindingType))
      && keyUniqueB rest

/-- How an operation can change the bindings table: untouched, one
insert of a key that was previously absent, or a pure deletion. -/
def bindingsShape (s t : DbState) : Prop :=
  t.bindings = s.bindings ∨
  (∃ nb : IpBinding, getIpBinding s nb.ipAddress nb.bindingType = none ∧
    t.bindings = s.bindings ++ [nb]) ∨
  (∃ q : IpBinding → Bool, t.bindings = s.bindings.filter q)

/-- An existing news binding of `addrA` at IP `9.9.9.9`. -/
def bindB : IpBinding :=
  { ipAddress := "9.9.9.9", bindingType := "news", walletAddress := addrA,
    boundAt := 5 }

/-- A database where `addrA` already holds the news binding for `9.9.9.9`. -/
def dbB : DbState :=
  { users := [userA], claims := [], bindings := [bindB], predictions := [],
    nextId := 1 }

/-- Modelled from the spec (§4.6 Phase A): the signature scheme the spec
describes — the solidity-packed keccak256 hash of
`(wallet, points, nonce, expiration)`, then the Ethereum-signed-message
(`personal_sign`) wrapper, then ECDSA with the server key. -/
def specVoucherSignature (key wallet : String) (points : Int) (nonce : String)
    (expiration : Nat) : Sig :=
  Sig.ecdsa key (Digest.ethSignedWrap
    (Digest.solidityPacked wallet points nonce expiration))

/-- A well-formed backend signing key. -/
def keyA : String := String.mk (List.replicate 64 'a')

/-- The sign response produced for `addrA` exchanging 300 points at time
600000000 with random part `"rr"` under `keyA`. -/
def signOkA : SignOk :=
  { nonce := mkNonce 600000000 "rr", expiration := 603600,
    signature := Sig.ecdsa keyA (Digest.solidityPacked addrA 300 (mkNonce 600000000 "rr") 603600) }

/-- A database where `addrA` has already claimed three news articles on
day 100. -/
def dbC5 : DbState :=
  { users := [userA],
    claims := [{ userId := 0, articleId := "news-a1", tokensEarned := 10, claimedDay := 100 },
      { userId := 0, articleId := "news-a2", tokensEarned := 10, claimedDay := 100 },
      { userId := 0, articleId := "news-a3", tokensEarned := 10, claimedDay := 100 }],
    bindings := [], predictions := [], nextId := 1 }

/-- A due pending BTC prediction: direction up, stake 100, entry 50000,
multiplier 2. -/
def predC9 : Prediction :=
  { id := 5, walletAddress := addrA, predictionId := "btc-3d", symbol := "BTC",
    direction := "up", betAmount := 100, entryPrice := 50000, days := 3,
    multiplier := 2, status := "pending", settlementDate := 50,
    exitPrice := none, payout := none }

/-- A database holding `predC9` for `addrA`. -/
def dbC9 : DbState :=
  { users := [userA], claims := [], bindings := [], predictions := [predC9],
    nextId := 10 }

theorem toNat_ofNat_of_lt {n : Nat} (h : n < 255) : (Char.ofNat n).toNat = n := by
  unfold Char.ofNat
  split
  · rfl
  · next hv => exact absurd (Or.inl (by omega)) hv

theorem jsLowerChar_toNat (c : Char) :
    (jsLowerChar c).toNat = if 65 ≤ c.toNat ∧ c.toNat ≤ 90 then c.toNat + 32 else c.toNat := by
  unfold jsLowerChar
  split
  · next h => exact toNat_ofNat_of_lt (by omega)
  · rfl

theorem jsLowerChar_idem (c : Char) : jsLowerChar (jsLowerChar c) = jsLowerChar c := by
  by_cases hP : 65 ≤ c.toNat ∧ c.toNat ≤ 90
  · have hd : (jsLowerChar c).toNat = c.toNat + 32 := by
      rw [jsLowerChar_toNat, if_pos hP]
    show (if 65 ≤ (jsLowerChar c).toNat ∧ (jsLowerChar c).toNat ≤ 90 then
        Char.ofNat ((jsLowerChar c).toNat + 32) else jsLowerChar c) = jsLowerChar c
    rw [if_neg (by omega)]
  · have hc : jsLowerChar c = c := by unfold jsLowerChar; rw [if_neg hP]
    rw [hc, hc]

theorem isAsciiUpper_jsLowerChar (c : Char) : isAsciiUpper (jsLowerChar c) = false := by
  have h := jsLowerChar_toNat c
  unfold isAsciiUpper
  by_cases hP : 65 ≤ c.toNat ∧ c.toNat ≤ 90
  · rw [if_pos hP] at h
    simp only [h, Bool.and_eq_false_iff, decide_eq_false_iff_not]
    omega
  · rw [if_neg hP] at h
    simp only [h, Bool.and_eq_false_iff, decide_eq_false_iff_not]
    omega

theorem isJsWhitespace_jsLowerChar (c : Char) :
    isJsWhitespace (jsLowerChar c) = isJsWhitespace c := by
  have h := jsLowerChar_toNat c
  by_cases hP : 65 ≤ c.toNat ∧ c.toNat ≤ 90
  · rw [if_pos hP] at h
    have h1 : isJsWhitespace (jsLowerChar c) = false := by
      unfold isJsWhitespace
      rw [h]
      simp only [Bool.or_eq_false_iff, beq_eq_false_iff_ne, ne_eq]
      omega
    have h2 : isJsWhitespace c = false := by
      unfold isJsWhitespace
      simp only [Bool.or_eq_false_iff, beq_eq_false_iff_ne, ne_eq]
      omega
    rw [h1, h2]
  · rw [if_neg hP] at h
    unfold isJsWhitespace
    rw [h]

theorem dropWhile_head?_false {p : α → Bool} {l : List α} {c : α}
    (h : (l.dropWhile p).head? = some c) : p c = false := by
  induction l with
  | nil => simp [List.dropWhile] at h
  | cons a t ih =>
    rw [List.dropWhile_cons] at h
    split at h
    · exact ih h
    · next hp => simp at h; subst h; simpa using hp

theorem dropWhile_of_head?_false {p : α → Bool} {l : List α}
    (h : ∀ c, l.head? = some c → p c = false) : l.dropWhile p = l := by
  cases l with
  | nil => rfl
  | cons a t => rw [List.dropWhile_cons, if_neg (by simp [h a rfl])]

theorem trimChars_head?_false {l : List Char} {c : Char}
    (h : (trimChars l).head? = some c) : isJsWhitespace c = false := by
  unfold trimChars at h
  rw [List.head?_reverse] at h
  rcases List.dropWhile_suffix (l := (l.dropWhile isJsWhitespace).reverse)
      (p := isJsWhitespace) with ⟨t, ht⟩
  have hr : ((l.dropWhile isJsWhitespace).reverse).getLast? = some c := by
    rw [← ht, List.getLast?_append, h]; rfl
  rw [List.getLast?_reverse] at hr
  exact dropWhile_head?_false hr

theorem trimChars_getLast?_false {l : List Char} {c : Char}
    (h : (trimChars l).getLast? = some c) : isJsWhitespace c = false := by
  unfold trimChars at h
  rw [List.getLast?_reverse] at h
  exact dropWhile_head?_false h

theorem trimChars_idem (l : List Char) : trimChars (trimChars l) = trimChars l := by
  have h1 : (trimChars l).dropWhile isJsWhitespace = trimChars l :=
    dropWhile_of_head?_false (fun c hc => trimChars_head?_false hc)
  have h2 : (trimChars l).reverse.dropWhile isJsWhitespace = (trimChars l).reverse :=
    dropWhile_of_head?_false (fun c hc => by
      rw [List.head?_reverse] at hc
      exact trimChars_getLast?_false hc)
  show (((trimChars l).dropWhile isJsWhitespace).reverse.dropWhile isJsWhitespace).reverse
      = trimChars l
  rw [h1, h2, List.reverse_reverse]

theorem trimChars_map_jsLowerChar (l : List Char) :
    trimChars (l.map jsLowerChar) = (trimChars l).map jsLowerChar := by
  have hp : (isJsWhitespace ∘ jsLowerChar) = isJsWhitespace := by
    funext c; exact isJsWhitespace_jsLowerChar c
  show (((l.map jsLowerChar).dropWhile isJsWhitespace).reverse.dropWhile
      isJsWhitespace).reverse = _
  rw [List.dropWhile_map, hp, ← List.map_reverse, List.dropWhile_map, hp,
    ← List.map_reverse]
  rfl

theorem map_jsLowerChar_idem (l : List Char) :
    (l.map jsLowerChar).map jsLowerChar = l.map jsLowerChar := by
  rw [List.map_map]
  exact List.map_congr_left (fun c _ => jsLowerChar_idem c)

theorem normalizeAddress_form (a : String) (h : a ≠ "") :
    normalizeAddress (some a) = String.mk ((trimChars a.data).map jsLowerChar) := by
  show (if a = "" then "" else jsToLower (jsTrim a)) = _
  rw [if_neg h]
  rfl

theorem normalizeAddress_data (a : Option String) :
    (normalizeAddress a).data = [] ∨
    ∃ b : String, (normalizeAddress a).data = (trimChars b.data).map jsLowerChar := by
  match a with
  | none => exact Or.inl rfl
  | some b =>
    by_cases hb : b = ""
    · subst hb; exact Or.inl rfl
    · right
      exact ⟨b, by rw [normalizeAddress_form b hb]⟩

theorem hasUpperAscii_normalizeAddress (a : Option String) :
    hasUpperAscii (normalizeAddress a) = false := by
  rcases normalizeAddress_data a with h | ⟨b, h⟩
  · unfold hasUpperAscii
    rw [h]
    rfl
  · unfold hasUpperAscii
    rw [h, List.any_map, List.any_eq_false]
    intro c _
    simp [Function.comp, isAsciiUpper_jsLowerChar c]

theorem firstIsWs_normalizeAddress (a : Option String) :
    firstIsWs (normalizeAddress a) = false := by
  rcases normalizeAddress_data a with h | ⟨b, h⟩
  · unfold firstIsWs
    rw [h]
    rfl
  · unfold firstIsWs
    rw [h, List.head?_map]
    cases hh : (trimChars b.data).head? with
    | none => rfl
    | some c =>
      show isJsWhitespace (jsLowerChar c) = false
      rw [isJsWhitespace_jsLowerChar c]
      exact trimChars_head?_false hh

theorem lastIsWs_normalizeAddress (a : Option String) :
    lastIsWs (normalizeAddress a) = false := by
  rcases normalizeAddress_data a with h | ⟨b, h⟩
  · unfold lastIsWs
    rw [h]
    rfl
  · unfold lastIsWs
    rw [h, List.getLast?_map]
    cases hh : (trimChars b.data).getLast? with
    | none => rfl
    | some c =>
      show isJsWhitespace (jsLowerChar c) = false
      rw [isJsWhitespace_jsLowerChar c]
      exact trimChars_getLast?_false hh

theorem normalizeAddress_idem (a : Option String) :
    normalizeAddress (some (normalizeAddress a)) = normalizeAddress a := by
  match a with
  | none => rfl
  | some b =>
    by_cases hb : b = ""
    · subst hb; rfl
    · rw [normalizeAddress_form b hb]
      by_cases hr : String.mk ((trimChars b.data).map jsLowerChar) = ""
      · rw [hr]
        rfl
      · rw [normalizeAddress_form _ hr]
        show String.mk ((trimChars ((trimChars b.data).map jsLowerChar)).map jsLowerChar) = _
        rw [trimChars_map_jsLowerChar, trimChars_idem, map_jsLowerChar_idem]

/-- C10: `normalizeAddress` is idempotent and total: applying it twice equals
applying it once, its result has no leading or trailing whitespace and no
uppercase (Basic Latin) letters, and `null`/`undefined` (modelled `none`) and
empty input yield the empty string rather than an error. -/
theorem normalizeAddress_idempotent_total (a : Option String) :
    normalizeAddress (some (normalizeAddress a)) = normalizeAddress a ∧
    hasUpperAscii (normalizeAddress a) = false ∧
    firstIsWs (normalizeAddress a) = false ∧
    lastIsWs (normalizeAddress a) = false ∧
    normalizeAddress none = "" ∧
    normalizeAddress (some "") = "" :=
  ⟨normalizeAddress_idem a, hasUpperAscii_normalizeAddress a,
   firstIsWs_normalizeAddress a, lastIsWs_normalizeAddress a, rfl, rfl⟩

/-- C6: signature freshness boundary. With the other credentials present and
valid (headers nonempty, address well formed, timestamp parses, signature
verifies), `requireWalletAuth` returns the signature-expired 401 exactly when
`|now - timestamp|` exceeds 5 minutes (300000 ms), and otherwise accepts,
storing the normalized address. In particular a timestamp 6 minutes in the
past is rejected and one 4 minutes in the past is accepted. -/
theorem requireWalletAuth_freshness (wallet sig ts : String) (nowMs t : Int)
    (sigValid : Bool)
    (hw : wallet ≠ "") (hs : sig ≠ "") (ht : ts ≠ "")
    (hfmt : isValidEthereumAddress wallet = true)
    (hparse : jsParseInt ts = some t)
    (hsig : sigValid = true) :
    (requireWalletAuth wallet sig ts nowMs sigValid = .err 401 "Signature expired"
      ↔ 5 * 60 * 1000 < |nowMs - t|) ∧
    (|nowMs - t| ≤ 5 * 60 * 1000 →
      requireWalletAuth wallet sig ts nowMs sigValid
        = .ok (normalizeAddress (some wallet))) := by
  unfold requireWalletAuth
  rw [hparse, hsig]
  simp only [hw, hs, ht, hfmt, Bool.or_self, if_false, Bool.not_true,
    Bool.false_or, Bool.or_false]
  by_cases hfresh : 5 * 60 * 1000 < |nowMs - t|
  · rw [if_pos hfresh]
    constructor
    · exact ⟨fun _ => hfresh, fun _ => rfl⟩
    · intro hle
      omega
  · rw [if_neg hfresh]
    constructor
    · constructor
      · intro h
        exact absurd h (by simp)
      · intro h
        exact absurd h hfresh
    · intro _
      rfl

/-- Witness for C6 at a concrete input: a well-formed request stamped 6
minutes before `now` is rejected as expired, one stamped 4 minutes before is
accepted. -/
theorem requireWalletAuth_freshness_witness :
    requireWalletAuth "0xaaaaaaaaaaaaaaaaaaaaaaaaaaaaaaaaaaaaaaaa" "sig"
        "1000000000" 1000360000 true = .err 401 "Signature expired" ∧
    requireWalletAuth "0xaaaaaaaaaaaaaaaaaaaaaaaaaaaaaaaaaaaaaaaa" "sig"
        "1000000000" 1000240000 true
      = .ok (normalizeAddress (some "0xaaaaaaaaaaaaaaaaaaaaaaaaaaaaaaaaaaaaaaaa")) := by
  constructor
  · exact (requireWalletAuth_freshness _ _ _ 1000360000 1000000000 true
      (by decide) (by decide) (by decide) (by decide) (by decide) rfl).1.mpr
      (by decide)
  · exact (requireWalletAuth_freshness _ _ _ 1000240000 1000000000 true
      (by decide) (by decide) (by decide) (by decide) (by decide) rfl).2
      (by decide)

theorem allBalancesNonneg_iff {s : DbState} :
    allBalancesNonneg s = true ↔ ∀ u ∈ s.users, 0 ≤ u.tokenBalance := by
  unfold allBalancesNonneg
  rw [List.all_eq_true]
  constructor
  · intro h u hu
    exact of_decide_eq_true (h u hu)
  · intro h u hu
    exact decide_eq_true (h u hu)

theorem getUserByUsername_nonneg {s : DbState} {w : String} {u : User}
    (hs : allBalancesNonneg s = true) (hu : getUserByUsername s w = some u) :
    0 ≤ u.tokenBalance :=
  allBalancesNonneg_iff.mp hs u (List.mem_of_find?_eq_some hu)

theorem allBalancesNonneg_updateUserTokens {s : DbState} {userId : Nat}
    {v d : Int} (hs : allBalancesNonneg s = true) (hv : 0 ≤ v) :
    allBalancesNonneg (updateUserTokens s userId v d) = true := by
  rw [allBalancesNonneg_iff] at *
  intro x hx
  rcases List.mem_map.mp hx with ⟨u, hu, rfl⟩
  by_cases hid : (u.id == userId) = true
  · rw [hid]
    simpa using hv
  · rw [Bool.not_eq_true] at hid
    rw [hid]
    exact hs u hu

theorem allBalancesNonneg_createUser {s : DbState} {w : String}
    (hs : allBalancesNonneg s = true) :
    allBalancesNonneg (createUser s w).2 = true := by
  rw [allBalancesNonneg_iff] at *
  intro x hx
  rcases List.mem_append.mp hx with hl | hr
  · exact hs x hl
  · rw [List.mem_singleton] at hr
    subst hr
    exact le_refl 0

theorem getOrCreateUser_nonneg {s : DbState} {w : String}
    (hs : allBalancesNonneg s = true) :
    0 ≤ (getOrCreateUser s w).1.tokenBalance ∧
    allBalancesNonneg (getOrCreateUser s w).2 = true := by
  unfold getOrCreateUser
  cases hu : getUserByUsername s w with
  | some u => exact ⟨getUserByUsername_nonneg hs hu, hs⟩
  | none =>
    have h1 : allBalancesNonneg (createUser s w).2 = true :=
      allBalancesNonneg_createUser hs
    have h2 : allBalancesNonneg
        (updateUserTokens (createUser s w).2 (createUser s w).1.id 0 0) = true :=
      allBalancesNonneg_updateUserTokens h1 (le_refl 0)
    cases hu2 : getUserByUsername
        (updateUserTokens (createUser s w).2 (createUser s w).1.id 0 0) w with
    | some u2 =>
      simp only [hu2]
      exact ⟨getUserByUsername_nonneg h2 hu2, h2⟩
    | none =>
      simp only [hu2]
      exact ⟨le_refl 0, h2⟩

theorem users_createUserClaim (s : DbState) (c : UserClaim) :
    (createUserClaim s c).users = s.users := rfl

theorem users_createIpBinding (s : DbState) (b : IpBinding) :
    (createIpBinding s b).users = s.users := by
  unfold createIpBinding
  split <;> rfl

theorem users_clearIpBindingsForWallet (s : DbState) (w : String) :
    (clearIpBindingsForWallet s w).users = s.users := rfl

theorem users_clearAllIpBindings (s : DbState) :
    (clearAllIpBindings s).users = s.users := rfl

theorem users_updatePredictionStatus (s : DbState) (id : Nat) (st : String)
    (e : Rat) (p : Int) : (updatePredictionStatus s id st e p).users = s.users := rfl

theorem users_deletePrediction (s : DbState) (id : Nat) :
    (deletePrediction s id).users = s.users := rfl

theorem allBalancesNonneg_users_eq {s t : DbState} (h : t.users = s.users)
    (hs : allBalancesNonneg s = true) : allBalancesNonneg t = true := by
  unfold allBalancesNonneg at *
  rw [h]
  exact hs

theorem inv_claimPoints {s : DbState} (sec w ip : String) (h : Bool) (d : Nat)
    (hs : allBalancesNonneg s = true) :
    allBalancesNonneg (claimPoints s sec w h ip d).2 = true := by
  obtain ⟨hub, hs1⟩ := getOrCreateUser_nonneg (s := s) (w := w) hs
  rcases hg : getOrCreateUser s w with ⟨user, s1⟩
  rw [hg] at hub hs1
  simp only at hub hs1
  unfold claimPoints
  rw [hg]
  dsimp only
  split
  · exact hs
  · split
    · exact hs
    · split
      · exact hs1
      · split
        · exact hs1
        · split
          · exact hs1
          · split
            · exact allBalancesNonneg_users_eq (users_createIpBinding _ _)
                (allBalancesNonneg_updateUserTokens
                  (allBalancesNonneg_users_eq (users_createUserClaim _ _) hs1)
                  (by omega))
            · exact allBalancesNonneg_updateUserTokens
                (allBalancesNonneg_users_eq (users_createUserClaim _ _) hs1)
                (by omega)

theorem inv_newsClaim {s : DbState} (w aid ip : String) (h : Bool) (d : Nat)
    (hs : allBalancesNonneg s = true) :
    allBalancesNonneg (newsClaim s w aid h ip d).2 = true := by
  obtain ⟨hub, hs1⟩ := getOrCreateUser_nonneg (s := s) (w := w) hs
  rcases hg : getOrCreateUser s w with ⟨user, s1⟩
  rw [hg] at hub hs1
  simp only at hub hs1
  unfold newsClaim
  rw [hg]
  dsimp only
  split
  · exact hs
  · split
    · exact hs
    · split
      · exact hs1
      · split
        · exact hs1
        · split
          · exact hs1
          · split
            · exact hs1
            · split
              · exact allBalancesNonneg_users_eq (users_createIpBinding _ _)
                  (allBalancesNonneg_updateUserTokens
                    (allBalancesNonneg_users_eq (users_createUserClaim _ _) hs1)
                    (by omega))
              · exact allBalancesNonneg_updateUserTokens
                  (allBalancesNonneg_users_eq (users_createUserClaim _ _) hs1)
                  (by omega)

theorem inv_adminGrantPoints {s : DbState} (ok : Bool) (w : String) (p : Int)
    (hs : allBalancesNonneg s = true) :
    allBalancesNonneg (adminGrantPoints s ok w p).2 = true := by
  obtain ⟨hub, hs1⟩ :=
    getOrCreateUser_nonneg (s := s) (w := normalizeAddress (some w)) hs
  rcases hg : getOrCreateUser s (normalizeAddress (some w)) with ⟨user, s1⟩
  rw [hg] at hub hs1
  simp only at hub hs1
  unfold adminGrantPoints
  split
  · exact hs
  · split
    · exact hs
    · split
      · exact hs
      · split
        · exact hs
        · next hok hmiss hple hmax =>
          dsimp only
          rw [hg]
          dsimp only
          refine allBalancesNonneg_updateUserTokens hs1 ?_
          rw [Bool.not_eq_true, Bool.or_eq_false_iff] at hmiss
          have hp : 0 < p := by
            rcases lt_or_le 0 p with hlt | hle
            · exact hlt
            · exact absurd hle (by simpa using hple)
          omega

theorem inv_walletConnect {s : DbState} (a ip : String) (n : Nat)
    (hs : allBalancesNonneg s = true) :
    allBalancesNonneg (walletConnect s a ip n).2 = true := by
  obtain ⟨hub, hs1⟩ := getOrCreateUser_nonneg (s := s) (w := jsToLower a) hs
  rcases hg : getOrCreateUser s (jsToLower a) with ⟨user, s1⟩
  rw [hg] at hub hs1
  simp only at hub hs1
  unfold walletConnect
  split
  · exact hs
  · dsimp only
    rw [hg]
    dsimp only
    split
    · split
      · exact hs1
      · exact hs1
    · exact allBalancesNonneg_users_eq (users_createIpBinding _ _) hs1

theorem inv_walletProfile {s : DbState} (w ip : String) (n : Nat)
    (hs : allBalancesNonneg s = true) :
    allBalancesNonneg (walletProfile s w ip n).2 = true := by
  obtain ⟨hub, hs1⟩ := getOrCreateUser_nonneg (s := s) (w := jsToLower w) hs
  rcases hg : getOrCreateUser s (jsToLower w) with ⟨user, s1⟩
  rw [hg] at hub hs1
  simp only at hub hs1
  unfold walletProfile
  split
  · exact hs
  · dsimp only
    rw [hg]
    dsimp only
    split
    · split
      · exact hs1
      · exact hs1
    · exact allBalancesNonneg_users_eq (users_createIpBinding _ _) hs1

theorem inv_clearIpBindings {s : DbState} (w : Option String)
    (hs : allBalancesNonneg s = true) :
    allBalancesNonneg (clearIpBindings s w).2 = true := by
  unfold clearIpBindings
  rcases w with _ | w
  · exact allBalancesNonneg_users_eq (users_clearAllIpBindings _) hs
  · dsimp only
    split
    · exact allBalancesNonneg_users_eq (users_clearAllIpBindings _) hs
    · exact allBalancesNonneg_users_eq (users_clearIpBindingsForWallet _ _) hs

/-- C7 supporting fact: every branch of the sign handler returns the input
state unchanged. -/
theorem exchangeSign_state (s : DbState) (w : String) (tid p : Int)
    (de : Option Bool) (n : Nat) (r : String) (k : Option String) :
    (exchangeSign s w tid p de n r k).2 = s := by
  unfold exchangeSign
  split
  · rfl
  · split
    · rfl
    · split
      · rfl
      · split
        · rfl
        · split
          · rfl
          · split
            · rfl
            · split
              · rfl
              · split
                · rfl
                · rfl

theorem inv_exchangeSign {s : DbState} (w : String) (tid p : Int)
    (de : Option Bool) (n : Nat) (r : String) (k : Option String)
    (hs : allBalancesNonneg s = true) :
    allBalancesNonneg (exchangeSign s w tid p de n r k).2 = true := by
  rw [exchangeSign_state]
  exact hs

theorem inv_exchangeConfirm {s : DbState} (raw : String) (p : Int)
    (tx : String) (ok : Bool) (rc : Option Receipt) (ct : Option String)
    (bt : Nat → Option Nat) (n : Nat)
    (hs : allBalancesNonneg s = true) :
    allBalancesNonneg (exchangeConfirm s raw p tx ok rc ct bt n).2 = true := by
  unfold exchangeConfirm
  dsimp only
  split
  · exact hs
  · split
    · exact hs
    · split
      · exact hs
      · split
        · exact hs
        · split
          · exact hs
          · split
            · exact hs
            · split
              · exact hs
              · split
                · exact hs
                · split
                  · exact hs
                  · split
                    · exact hs
                    · exact allBalancesNonneg_updateUserTokens hs
                        (le_max_left 0 _)

theorem users_createPrediction (s : DbState) (f : Nat → Prediction) :
    (createPrediction s f).2.users = s.users := rfl

theorem inv_placeBet {s : DbState} (w pid dir : String) (amt : Int) (h : Bool)
    (pr : Option Rat) (n : Nat) (dk : Bool)
    (hs : allBalancesNonneg s = true) :
    allBalancesNonneg (placeBet s w pid dir amt h pr n dk).2 = true := by
  delta placeBet
  by_cases h1 : (decide (pid = "") || decide (dir = "") || amt == 0) = true
  · rw [if_pos h1]; exact hs
  · rw [if_neg h1]
    by_cases h2 : amt ≤ 0
    · rw [if_pos h2]; exact hs
    · rw [if_neg h2]
      by_cases h3 : (!(amt % 2 == 0)) = true
      · rw [if_pos h3]; exact hs
      · rw [if_neg h3]
        by_cases h4 : amt < 10
        · rw [if_pos h4]; exact hs
        · rw [if_neg h4]
          by_cases h5 : 10000 < amt
          · rw [if_pos h5]; exact hs
          · rw [if_neg h5]
            by_cases h6 : (!(dir == "up" || dir == "down")) = true
            · rw [if_pos h6]; exact hs
            · rw [if_neg h6]
              by_cases h7 : (!h) = true
              · rw [if_pos h7]; exact hs
              · rw [if_neg h7]
                cases hfu : getUserByUsername s w with
                | none => exact hs
                | some user =>
                  dsimp only
                  by_cases h8 : user.tokenBalance < amt
                  · rw [if_pos h8]; exact hs
                  · rw [if_neg h8]
                    by_cases h9 : (decide ((pid.splitOn "-").getD 0 "" = "") ||
                        decide ((pid.splitOn "-").getD 1 "" = "")) = true
                    · rw [if_pos h9]; exact hs
                    · rw [if_neg h9]
                      by_cases h10 : (!(match jsParseInt (String.mk
                          (removeFirstChar ((pid.splitOn "-").getD 1 "").data 'd')) with
                          | some d => d == 3 || d == 5 || d == 7
                          | none => false)) = true
                      · rw [if_pos h10]; exact hs
                      · rw [if_neg h10]
                        cases hpr : pr with
                        | none => exact hs
                        | some currentPrice =>
                          dsimp only
                          by_cases h11 : currentPrice ≤ 0
                          · rw [if_pos h11]; exact hs
                          · rw [if_neg h11]
                            cases hdup : (getUserPredictions s w).find? (fun bet =>
                                bet.predictionId == pid && bet.status == "pending" &&
                                bet.direction == dir) with
                            | some b => exact hs
                            | none =>
                              dsimp only
                              have hu : 0 ≤ user.tokenBalance :=
                                getUserByUsername_nonneg hs hfu
                              have hinv1 : ∀ f, allBalancesNonneg
                                  (createPrediction s f).2 = true := fun f =>
                                allBalancesNonneg_users_eq
                                  (users_createPrediction s f) hs
                              by_cases h12 : dk = true
                              · rw [if_pos h12]
                                exact allBalancesNonneg_updateUserTokens (hinv1 _)
                                  (by omega)
                              · rw [if_neg h12]
                                exact allBalancesNonneg_users_eq
                                  (users_deletePrediction _ _) (hinv1 _)

theorem inv_settleOne {s : DbState} (pred : Prediction)
    (prices : String → Option Rat) (now : Nat) (wk : Bool)
    (hs : allBalancesNonneg s = true) :
    allBalancesNonneg (settleOne s pred prices now wk) = true := by
  unfold settleOne
  split
  · exact hs
  · split
    · exact hs
    · split
      · exact hs
      · split
        · exact hs
        · dsimp only
          split
          · split
            · exact hs
            · next user hfound =>
              split
              · exact hs
              · next hnb =>
                split
                · exact hs
                · exact allBalancesNonneg_users_eq
                    (users_updatePredictionStatus _ _ _ _ _)
                    (allBalancesNonneg_updateUserTokens hs (by omega))
          · exact allBalancesNonneg_users_eq
              (users_updatePredictionStatus _ _ _ _ _) hs

theorem inv_applyOp {s : DbState} (op : Op)
    (hs : allBalancesNonneg s = true) :
    allBalancesNonneg (applyOp s op) = true := by
  cases op with
  | opClaimPoints sec w ip h d => exact inv_claimPoints sec w ip h d hs
  | opNewsClaim w aid ip h d => exact inv_newsClaim w aid ip h d hs
  | opAdminGrant ok w p => exact inv_adminGrantPoints ok w p hs
  | opWalletConnect a ip n => exact inv_walletConnect a ip n hs
  | opWalletProfile w ip n => exact inv_walletProfile w ip n hs
  | opClearIpBindings w => exact inv_clearIpBindings w hs
  | opPlaceBet w pid dir amt h pr n dk => exact inv_placeBet w pid dir amt h pr n dk hs
  | opExchangeSign w tid p de n r k => exact inv_exchangeSign w tid p de n r k hs
  | opExchangeConfirm raw p tx ok rc ct bt n =>
    exact inv_exchangeConfirm raw p tx ok rc ct bt n hs
  | opSettleStep pid prices now wk =>
    show allBalancesNonneg (match s.predictions.find?
        (fun p => p.id == pid && p.status == "pending") with
      | none => s
      | some pred => settleOne s pred prices now wk) = true
    cases hf : s.predictions.find? (fun p => p.id == pid && p.status == "pending") with
    | none => exact hs
    | some pred => exact inv_settleOne pred prices now wk hs

/-- C4: balance non-negativity. From any state whose user balances are all
non-negative, any sequence of system operations (section and news claims,
admin grants, bet placements, exchange sign and confirm, settlement steps,
wallet connect/profile, binding clears) leaves every balance non-negative. -/
theorem balances_nonneg_invariant (s : DbState) (ops : List Op)
    (hs : allBalancesNonneg s = true) :
    allBalancesNonneg (runOps s ops) = true := by
  induction ops generalizing s with
  | nil => exact hs
  | cons op rest ih => exact ih _ (inv_applyOp op hs)

/-- Witness for C4 on a concrete state and workload. -/
theorem balances_nonneg_invariant_witness :
    allBalancesNonneg (runOps dbA opsC4) = true :=
  balances_nonneg_invariant dbA opsC4 (by decide)

theorem keyUniqueB_eq {l : List IpBinding} {b b' : IpBinding}
    (hu : keyUniqueB l = true) (hb : b ∈ l) (hb' : b' ∈ l)
    (hip : b'.ipAddress = b.ipAddress) (hty : b'.bindingType = b.bindingType) :
    b' = b := by
  induction l with
  | nil => exact absurd hb (List.not_mem_nil b)
  | cons a rest ih =>
    rw [show keyUniqueB (a :: rest) = (rest.all (fun x => !(x.ipAddress == a.ipAddress
      && x.bindingType == a.bindingType)) && keyUniqueB rest) from rfl,
      Bool.and_eq_true, List.all_eq_true] at hu
    rcases List.mem_cons.mp hb with rfl | hbr
    · rcases List.mem_cons.mp hb' with rfl | hbr'
      · rfl
      · have := hu.1 b' hbr'
        rw [hip, hty] at this
        simp at this
    · rcases List.mem_cons.mp hb' with rfl | hbr'
      · have := hu.1 b hbr
        rw [← hip, ← hty] at this
        simp at this
      · exact ih hu.2 hbr hbr'

theorem find?_append_left {α : Type} {p : α → Bool} {l l2 : List α} {b : α}
    (h : l.find? p = some b) : (l ++ l2).find? p = some b := by
  rw [List.find?_append, h]
  rfl

theorem any_eq_false_of_find?_none {α : Type} {p : α → Bool} {l : List α}
    (h : l.find? p = none) : l.any p = false := by
  rw [List.find?_eq_none] at h
  rw [Bool.eq_false_iff]
  intro hany
  rcases List.any_eq_true.mp hany with ⟨x, hx, hpx⟩
  exact h x hx hpx

theorem getIpBinding_of_bindings_eq {s t : DbState} (h : t.bindings = s.bindings)
    (ip ty : String) : getIpBinding t ip ty = getIpBinding s ip ty := by
  unfold getIpBinding
  rw [h]

theorem bindings_getOrCreateUser (s : DbState) (w : String) :
    (getOrCreateUser s w).2.bindings = s.bindings := by
  unfold getOrCreateUser
  cases getUserByUsername s w with
  | some u => rfl
  | none =>
    rcases hcu : createUser s w with ⟨u, s1⟩
    dsimp only
    have hs1b : s1.bindings = s.bindings := by
      have h2 : s1 = (createUser s w).2 := by rw [hcu]
      rw [h2]
      rfl
    cases getUserByUsername (updateUserTokens s1 u.id 0 0) w with
    | some u2 => exact hs1b
    | none => exact hs1b

theorem bindings_createIpBinding_absent {s : DbState} {nb : IpBinding}
    (h : getIpBinding s nb.ipAddress nb.bindingType = none) :
    (createIpBinding s nb).bindings = s.bindings ++ [nb] := by
  unfold createIpBinding
  rw [if_neg]
  rw [any_eq_false_of_find?_none h]
  simp

theorem shape_claimPoints (s : DbState) (sec w ip : String) (h : Bool) (d : Nat) :
    bindingsShape s (claimPoints s sec w h ip d).2 := by
  rcases hg : getOrCreateUser s w with ⟨user, s1⟩
  have hb1 : s1.bindings = s.bindings := by
    have := bindings_getOrCreateUser s w
    rw [hg] at this
    exact this
  unfold claimPoints
  rw [hg]
  dsimp only
  split
  · exact Or.inl rfl
  · split
    · exact Or.inl rfl
    · split
      · exact Or.inl hb1
      · split
        · exact Or.inl hb1
        · split
          · exact Or.inl hb1
          · split
            · next hnone =>
              rw [Option.isNone_iff_eq_none] at hnone
              have hnone2 : getIpBinding s ip sec = none := by
                rw [← getIpBinding_of_bindings_eq hb1]
                exact hnone
              have hs3b : (updateUserTokens (createUserClaim s1
                  { userId := user.id, articleId := sec ++ "-" ++ toString d,
                    tokensEarned := 35, claimedDay := d }) user.id
                  (user.tokenBalance + 35) (user.dailyClaims + 1)).bindings
                  = s.bindings := hb1
              refine Or.inr (Or.inl ⟨{ ipAddress := ip, bindingType := sec, walletAddress := normalizeAddress (some w), boundAt := d }, hnone2, ?_⟩)
              rw [bindings_createIpBinding_absent]
              · rw [hs3b]
              · show getIpBinding _ ip sec = none
                rw [getIpBinding_of_bindings_eq hs3b]
                exact hnone2
            · exact Or.inl hb1

theorem shape_newsClaim (s : DbState) (w aid ip : String) (h : Bool) (d : Nat) :
    bindingsShape s (newsClaim s w aid h ip d).2 := by
  rcases hg : getOrCreateUser s w with ⟨user, s1⟩
  have hb1 : s1.bindings = s.bindings := by
    have := bindings_getOrCreateUser s w
    rw [hg] at this
    exact this
  unfold newsClaim
  rw [hg]
  dsimp only
  split
  · exact Or.inl rfl
  · split
    · exact Or.inl rfl
    · split
      · exact Or.inl hb1
      · split
        · exact Or.inl hb1
        · split
          · exact Or.inl hb1
          · split
            · exact Or.inl hb1
            · split
              · next hnone =>
                rw [Option.isNone_iff_eq_none] at hnone
                have hnone2 : getIpBinding s ip "news" = none := by
                  rw [← getIpBinding_of_bindings_eq hb1]
                  exact hnone
                have hs3b : (updateUserTokens (createUserClaim s1
                    { userId := user.id, articleId := "news-" ++ aid,
                      tokensEarned := 10, claimedDay := d }) user.id
                    (user.tokenBalance + 10) (user.dailyClaims + 1)).bindings
                    = s.bindings := hb1
                refine Or.inr (Or.inl ⟨{ ipAddress := ip, bindingType := "news", walletAddress := normalizeAddress (some w), boundAt := d }, hnone2, ?_⟩)
                rw [bindings_createIpBinding_absent]
                · rw [hs3b]
                · show getIpBinding _ ip "news" = none
                  rw [getIpBinding_of_bindings_eq hs3b]
                  exact hnone2
              · exact Or.inl hb1

theorem shape_adminGrantPoints (s : DbState) (ok : Bool) (w : String) (p : Int) :
    bindingsShape s (adminGrantPoints s ok w p).2 := by
  rcases hg : getOrCreateUser s (normalizeAddress (some w)) with ⟨user, s1⟩
  have hb1 : s1.bindings = s.bindings := by
    have := bindings_getOrCreateUser s (normalizeAddress (some w))
    rw [hg] at this
    exact this
  unfold adminGrantPoints
  split
  · exact Or.inl rfl
  · split
    · exact Or.inl rfl
    · split
      · exact Or.inl rfl
      · split
        · exact Or.inl rfl
        · dsimp only
          rw [hg]
          dsimp only
          exact Or.inl hb1

theorem shape_walletConnect (s : DbState) (a ip : String) (n : Nat) :
    bindingsShape s (walletConnect s a ip n).2 := by
  rcases hg : getOrCreateUser s (jsToLower a) with ⟨user, s1⟩
  have hb1 : s1.bindings = s.bindings := by
    have := bindings_getOrCreateUser s (jsToLower a)
    rw [hg] at this
    exact this
  unfold walletConnect
  split
  · exact Or.inl rfl
  · dsimp only
    rw [hg]
    dsimp only
    cases hbind : getIpBinding s1 ip "predictions" with
    | some b =>
      dsimp only
      split
      · exact Or.inl hb1
      · exact Or.inl hb1
    | none =>
      dsimp only
      have hnone2 : getIpBinding s ip "predictions" = none := by
        rw [← getIpBinding_of_bindings_eq hb1]
        exact hbind
      refine Or.inr (Or.inl ⟨{ ipAddress := ip, bindingType := "predictions", walletAddress := a, boundAt := n }, hnone2, ?_⟩)
      rw [bindings_createIpBinding_absent]
      · rw [hb1]
      · show getIpBinding _ ip "predictions" = none
        rw [getIpBinding_of_bindings_eq hb1]
        exact hnone2

theorem shape_walletProfile (s : DbState) (w ip : String) (n : Nat) :
    bindingsShape s (walletProfile s w ip n).2 := by
  rcases hg : getOrCreateUser s (jsToLower w) with ⟨user, s1⟩
  have hb1 : s1.bindings = s.bindings := by
    have := bindings_getOrCreateUser s (jsToLower w)
    rw [hg] at this
    exact this
  unfold walletProfile
  split
  · exact Or.inl rfl
  · dsimp only
    rw [hg]
    dsimp only
    cases hbind : getIpBinding s1 ip "predictions" with
    | some b =>
      dsimp only
      split
      · exact Or.inl hb1
      · exact Or.inl hb1
    | none =>
      dsimp only
      have hnone2 : getIpBinding s ip "predictions" = none := by
        rw [← getIpBinding_of_bindings_eq hb1]
        exact hbind
      refine Or.inr (Or.inl ⟨{ ipAddress := ip, bindingType := "predictions", walletAddress := w, boundAt := n }, hnone2, ?_⟩)
      rw [bindings_createIpBinding_absent]
      · rw [hb1]
      · show getIpBinding _ ip "predictions" = none
        rw [getIpBinding_of_bindings_eq hb1]
        exact hnone2

theorem shape_clearIpBindings (s : DbState) (w : Option String) :
    bindingsShape s (clearIpBindings s w).2 := by
  unfold clearIpBindings
  rcases w with _ | w
  · exact Or.inr (Or.inr ⟨fun _ => false, (List.filter_false _).symm⟩)
  · dsimp only
    split
    · exact Or.inr (Or.inr ⟨fun _ => false, (List.filter_false _).symm⟩)
    · exact Or.inr (Or.inr ⟨_, rfl⟩)

theorem bindings_exchangeConfirm (s : DbState) (raw : String) (p : Int)
    (tx : String) (ok : Bool) (rc : Option Receipt) (ct : Option String)
    (bt : Nat → Option Nat) (n : Nat) :
    (exchangeConfirm s raw p tx ok rc ct bt n).2.bindings = s.bindings := by
  unfold exchangeConfirm
  dsimp only
  split
  · rfl
  · split
    · rfl
    · split
      · rfl
      · split
        · rfl
        · split
          · rfl
          · split
            · rfl
            · split
              · rfl
              · split
                · rfl
                · split
                  · rfl
                  · split
                    · rfl
                    · rfl

theorem bindings_placeBet (s : DbState) (w pid dir : String) (amt : Int)
    (h : Bool) (pr : Option Rat) (n : Nat) (dk : Bool) :
    (placeBet s w pid dir amt h pr n dk).2.bindings = s.bindings := by
  delta placeBet
  by_cases h1 : (decide (pid = "") || decide (dir = "") || amt == 0) = true
  · rw [if_pos h1]
  · rw [if_neg h1]
    by_cases h2 : amt ≤ 0
    · rw [if_pos h2]
    · rw [if_neg h2]
      by_cases h3 : (!(amt % 2 == 0)) = true
      · rw [if_pos h3]
      · rw [if_neg h3]
        by_cases h4 : amt < 10
        · rw [if_pos h4]
        · rw [if_neg h4]
          by_cases h5 : 10000 < amt
          · rw [if_pos h5]
          · rw [if_neg h5]
            by_cases h6 : (!(dir == "up" || dir == "down")) = true
            · rw [if_pos h6]
            · rw [if_neg h6]
              by_cases h7 : (!h) = true
              · rw [if_pos h7]
              · rw [if_neg h7]
                cases hfu : getUserByUsername s w with
                | none => rfl
                | some user =>
                  dsimp only
                  by_cases h8 : user.tokenBalance < amt
                  · rw [if_pos h8]
                  · rw [if_neg h8]
                    by_cases h9 : (decide ((pid.splitOn "-").getD 0 "" = "") ||
                        decide ((pid.splitOn "-").getD 1 "" = "")) = true
                    · rw [if_pos h9]
                    · rw [if_neg h9]
                      by_cases h10 : (!(match jsParseInt (String.mk
                          (removeFirstChar ((pid.splitOn "-").getD 1 "").data 'd')) with
                          | some d => d == 3 || d == 5 || d == 7
                          | none => false)) = true
                      · rw [if_pos h10]
                      · rw [if_neg h10]
                        cases hpr : pr with
                        | none => rfl
                        | some currentPrice =>
                          dsimp only
                          by_cases h11 : currentPrice ≤ 0
                          · rw [if_pos h11]
                          · rw [if_neg h11]
                            cases hdup : (getUserPredictions s w).find? (fun bet =>
                                bet.predictionId == pid && bet.status == "pending" &&
                                bet.direction == dir) with
                            | some b => rfl
                            | none =>
                              dsimp only
                              by_cases h12 : dk = true
                              · rw [if_pos h12]; rfl
                              · rw [if_neg h12]; rfl

theorem bindings_settleOne (s : DbState) (pred : Prediction)
    (prices : String → Option Rat) (now : Nat) (wk : Bool) :
    (settleOne s pred prices now wk).bindings = s.bindings := by
  unfold settleOne
  split
  · rfl
  · split
    · rfl
    · split
      · rfl
      · split
        · rfl
        · dsimp only
          split
          · split
            · rfl
            · split
              · rfl
              · split
                · rfl
                · rfl
          · rfl

theorem bindingsShape_applyOp (s : DbState) (op : Op) :
    bindingsShape s (applyOp s op) := by
  cases op with
  | opClaimPoints sec w ip h d => exact shape_claimPoints s sec w ip h d
  | opNewsClaim w aid ip h d => exact shape_newsClaim s w aid ip h d
  | opAdminGrant ok w p => exact shape_adminGrantPoints s ok w p
  | opWalletConnect a ip n => exact shape_walletConnect s a ip n
  | opWalletProfile w ip n => exact shape_walletProfile s w ip n
  | opClearIpBindings w => exact shape_clearIpBindings s w
  | opPlaceBet w pid dir amt h pr n dk =>
    exact Or.inl (bindings_placeBet s w pid dir amt h pr n dk)
  | opExchangeSign w tid p de n r k =>
    refine Or.inl ?_
    show (exchangeSign s w tid p de n r k).2.bindings = s.bindings
    rw [exchangeSign_state]
  | opExchangeConfirm raw p tx ok rc ct bt n =>
    exact Or.inl (bindings_exchangeConfirm s raw p tx ok rc ct bt n)
  | opSettleStep pid prices now wk =>
    show bindingsShape s (match s.predictions.find?
        (fun p => p.id == pid && p.status == "pending") with
      | none => s
      | some pred => settleOne s pred prices now wk)
    cases s.predictions.find? (fun p => p.id == pid && p.status == "pending") with
    | none => exact Or.inl rfl
    | some pred => exact Or.inl (bindings_settleOne s pred prices now wk)

/-- C2: IP-binding immutability. In a state whose bindings table has at most
one row per `(ipAddress, bindingType)` key (the table's primary key), if the
pair is bound to some wallet before an operation and still bound after it,
the wallet is unchanged and at most the `boundAt` timestamp of the row could
differ (every binding-creating call site runs only when the pair is unbound,
so in fact the row is untouched). -/
theorem ipBinding_immutable (s : DbState) (op : Op) (ip ty : String)
    (b b' : IpBinding)
    (huniq : keyUniqueB s.bindings = true)
    (hb : getIpBinding s ip ty = some b)
    (hb' : getIpBinding (applyOp s op) ip ty = some b') :
    b'.walletAddress = b.walletAddress ∧ b' = { b with boundAt := b'.boundAt } := by
  have hbb : b' = b := by
    rcases bindingsShape_applyOp s op with heq | ⟨nb, hnone, happ⟩ | ⟨q, hfil⟩
    · rw [getIpBinding_of_bindings_eq heq, hb] at hb'
      exact (Option.some_inj.mp hb').symm
    · unfold getIpBinding at hb hb'
      rw [happ, List.find?_append, hb] at hb'
      simpa using hb'.symm
    · unfold getIpBinding at hb hb'
      rw [hfil] at hb'
      have hpb' := List.find?_some hb'
      have hmemb' : b' ∈ s.bindings :=
        List.mem_of_mem_filter (List.mem_of_find?_eq_some hb')
      have hpb := List.find?_some hb
      have hmemb : b ∈ s.bindings := List.mem_of_find?_eq_some hb
      rw [Bool.and_eq_true, beq_iff_eq, beq_iff_eq] at hpb hpb'
      exact keyUniqueB_eq huniq hmemb hmemb'
        (by rw [hpb'.1, hpb.1]) (by rw [hpb'.2, hpb.2])
  subst hbb
  exact ⟨rfl, rfl⟩

/-- Witness for C2: a successful news claim through the already-bound IP
leaves the binding row's wallet (indeed the row) unchanged. -/
theorem ipBinding_immutable_witness :
    bindB.walletAddress = bindB.walletAddress ∧
    bindB = { bindB with boundAt := bindB.boundAt } :=
  ipBinding_immutable dbB (Op.opNewsClaim addrA "a9" "9.9.9.9" true 200)
    "9.9.9.9" "news" bindB bindB (by decide) (by decide) (by decide)

/-- C7: the sign phase mutates nothing. Every invocation of
`POST /api/exchange/sign` — succeeding or failing on any branch — returns
the database state unchanged: in particular all balances and all claim
records are exactly as before the call. -/
theorem exchangeSign_no_mutation (s : DbState) (w : String) (tid p : Int)
    (de : Option Bool) (n : Nat) (r : String) (k : Option String) :
    (exchangeSign s w tid p de n r k).2 = s ∧
    (exchangeSign s w tid p de n r k).2.users = s.users ∧
    (exchangeSign s w tid p de n r k).2.claims = s.claims := by
  rw [exchangeSign_state]
  exact ⟨rfl, rfl, rfl⟩

/-- Counterexample for C3: at a concrete successful sign invocation the
returned signature is the ECDSA signature of the bare packed hash, which
differs from the spec's `personal_sign`-wrapped signature of the same
tuple — no Ethereum-signed-message step is applied by the code. -/
theorem exchangeSign_wrap_counterexample :
    (exchangeSign dbA addrA 2 300 none 600000000 "rr" (some keyA)).1
      = ApiResult.ok signOkA ∧
    signOkA.signature
      ≠ specVoucherSignature keyA addrA 300 signOkA.nonce signOkA.expiration := by
  constructor
  · decide
  · decide

/-- C3 (amended): on every successful sign request the returned signature
is the ECDSA signature, under the server-held key, of the solidity-packed
keccak256 hash of exactly `(address walletAddress, uint256 points, bytes32
nonce, uint256 expiration)` — signed directly, without the
Ethereum-signed-message wrapper — with the returned nonce and the
one-hour expiration. -/
theorem exchangeSign_signature_scheme (s : DbState) (w : String)
    (tid points : Int) (de : Option Bool) (nowMs : Nat) (rand : String)
    (key : String) (out : SignOk)
    (hok : (exchangeSign s w tid points de nowMs rand (some key)).1
      = ApiResult.ok out) :
    out.signature
      = Sig.ecdsa key (Digest.solidityPacked w points out.nonce out.expiration) ∧
    out.nonce = mkNonce nowMs rand ∧
    out.expiration = nowMs / 1000 + 3600 := by
  unfold exchangeSign at hok
  split at hok
  · exact absurd hok (by simp)
  · split at hok
    · exact absurd hok (by simp)
    · split at hok
      · exact absurd hok (by simp)
      · split at hok
        · exact absurd hok (by simp)
        · split at hok
          · exact absurd hok (by simp)
          · split at hok
            · exact absurd hok (by simp)
            · split at hok
              · exact absurd hok (by simp)
              · next a heq =>
                injection heq with heq2
                subst heq2
                split at hok
                · exact absurd hok (by simp)
                · dsimp only at hok
                  rw [ApiResult.ok.injEq] at hok
                  subst hok
                  exact ⟨rfl, rfl, rfl⟩

/-- Witness for C3's amended theorem at a concrete successful invocation. -/
theorem exchangeSign_signature_scheme_witness :
    signOkA.signature = Sig.ecdsa keyA
      (Digest.solidityPacked addrA 300 signOkA.nonce signOkA.expiration) ∧
    signOkA.nonce = mkNonce 600000000 "rr" ∧
    signOkA.expiration = 600000000 / 1000 + 3600 :=
  exchangeSign_signature_scheme dbA addrA 2 300 none 600000000 "rr" keyA
    signOkA (by decide)

/-- Every run of the confirm handler (with the receipt fetch succeeding and
a configured contract) either returns an error leaving the state untouched,
or all verification and balance checks passed and it debits exactly
`max 0 (balance - points)`. -/
theorem exchangeConfirm_spec (s : DbState) (raw : String) (p : Int)
    (tx : String) (rc? : Option Receipt) (ct : String)
    (bt : Nat → Option Nat) (n : Nat) :
    (∃ st msg, exchangeConfirm s raw p tx true rc? (some ct) bt n
      = (.err st msg, s)) ∨
    (∃ rcpt u, rc? = some rcpt ∧ rcpt.status = 1 ∧
      toMatches rcpt ct = true ∧
      senderMatches rcpt (normalizeAddress (some raw)) = true ∧
      txAgeOf bt rcpt n ≤ 300 ∧
      getUserByUsername s (normalizeAddress (some raw)) = some u ∧
      p ≤ u.tokenBalance ∧
      exchangeConfirm s raw p tx true rc? (some ct) bt n
        = (.ok (max 0 (u.tokenBalance - p)),
          updateUserTokens s u.id (max 0 (u.tokenBalance - p)) u.dailyClaims)) := by
  unfold exchangeConfirm
  dsimp only
  split
  · exact Or.inl ⟨_, _, rfl⟩
  · split
    · exact Or.inl ⟨_, _, rfl⟩
    · split
      · exact Or.inl ⟨_, _, rfl⟩
      · next x0 rcpt =>
        split
        · exact Or.inl ⟨_, _, rfl⟩
        · next hstatus =>
          split
          · exact Or.inl ⟨_, _, rfl⟩
          · next hto =>
            split
            · exact Or.inl ⟨_, _, rfl⟩
            · next hsender =>
              split
              · exact Or.inl ⟨_, _, rfl⟩
              · next hage =>
                split
                · exact Or.inl ⟨_, _, rfl⟩
                · next x1 user huser =>
                  split
                  · exact Or.inl ⟨_, _, rfl⟩
                  · next hbal =>
                    refine Or.inr ⟨rcpt, user, rfl, ?_, ?_, ?_, ?_, huser, ?_, rfl⟩
                    · have := hstatus
                      simp only [Bool.not_eq_true, Bool.not_eq_false] at this
                      exact beq_iff_eq.mp (by simpa using this)
                    · simpa using hto
                    · simpa using hsender
                    · exact le_of_not_lt hage
                    · exact le_of_not_lt hbal

/-- C8: exchange confirm gating and atomicity. With present fields, a
successful receipt fetch and a configured contract: every error outcome
leaves the state unchanged and a success debits exactly
`max 0 (balance - points)` after all checks (receipt exists, status 1,
`to` and `from` match case-insensitively, block timestamp within 5 minutes)
passed; and each of the five verification checks fails, in order, with its
specific 400 error and an unchanged state. -/
theorem exchangeConfirm_gating (s : DbState) (raw : String) (p : Int)
    (tx : String) (rc? : Option Receipt) (ct : String) (bt : Nat → Option Nat)
    (n : Nat)
    (hwa : normalizeAddress (some raw) ≠ "") (hp : p ≠ 0) (htx : tx ≠ "") :
    ((∃ st msg, exchangeConfirm s raw p tx true rc? (some ct) bt n
        = (.err st msg, s)) ∨
      (∃ rcpt u, rc? = some rcpt ∧ rcpt.status = 1 ∧
        toMatches rcpt ct = true ∧
        senderMatches rcpt (normalizeAddress (some raw)) = true ∧
        txAgeOf bt rcpt n ≤ 300 ∧
        getUserByUsername s (normalizeAddress (some raw)) = some u ∧
        p ≤ u.tokenBalance ∧
        exchangeConfirm s raw p tx true rc? (some ct) bt n
          = (.ok (max 0 (u.tokenBalance - p)),
            updateUserTokens s u.id (max 0 (u.tokenBalance - p)) u.dailyClaims))) ∧
    (rc? = none → exchangeConfirm s raw p tx true rc? (some ct) bt n
      = (.err 400 "Transaction not found on blockchain", s)) ∧
    (∀ rcpt, rc? = some rcpt → rcpt.status ≠ 1 →
      exchangeConfirm s raw p tx true rc? (some ct) bt n
        = (.err 400 "Transaction failed on blockchain", s)) ∧
    (∀ rcpt, rc? = some rcpt → rcpt.status = 1 → toMatches rcpt ct = false →
      exchangeConfirm s raw p tx true rc? (some ct) bt n
        = (.err 400 "Transaction not for correct contract", s)) ∧
    (∀ rcpt, rc? = some rcpt → rcpt.status = 1 → toMatches rcpt ct = true →
      senderMatches rcpt (normalizeAddress (some raw)) = false →
      exchangeConfirm s raw p tx true rc? (some ct) bt n
        = (.err 400 "Transaction from wrong wallet", s)) ∧
    (∀ rcpt, rc? = some rcpt → rcpt.status = 1 → toMatches rcpt ct = true →
      senderMatches rcpt (normalizeAddress (some raw)) = true →
      300 < txAgeOf bt rcpt n →
      exchangeConfirm s raw p tx true rc? (some ct) bt n
        = (.err 400 "Transaction too old", s)) := by
  refine ⟨exchangeConfirm_spec s raw p tx rc? ct bt n, ?_, ?_, ?_, ?_, ?_⟩
  · intro hrc
    unfold exchangeConfirm
    dsimp only
    rw [if_neg (by simp [hwa, hp, htx]), if_neg (by simp), hrc]
  · intro rcpt hrc hstatus
    unfold exchangeConfirm
    dsimp only
    rw [if_neg (by simp [hwa, hp, htx]), if_neg (by simp), hrc]
    dsimp only
    rw [if_pos (by simp [hstatus])]
  · intro rcpt hrc hstatus hto
    unfold exchangeConfirm
    dsimp only
    rw [if_neg (by simp [hwa, hp, htx]), if_neg (by simp), hrc]
    dsimp only
    rw [if_neg (by simp [hstatus]), if_pos (by simp [hto])]
  · intro rcpt hrc hstatus hto hsender
    unfold exchangeConfirm
    dsimp only
    rw [if_neg (by simp [hwa, hp, htx]), if_neg (by simp), hrc]
    dsimp only
    rw [if_neg (by simp [hstatus]), if_neg (by simp [hto]),
      if_pos (by simp [hsender])]
  · intro rcpt hrc hstatus hto hsender hage
    unfold exchangeConfirm
    dsimp only
    rw [if_neg (by simp [hwa, hp, htx]), if_neg (by simp), hrc]
    dsimp only
    rw [if_neg (by simp [hstatus]), if_neg (by simp [hto]),
      if_neg (by simp [hsender]), if_pos hage]

/-- Witness for C8: a confirm call whose transaction is missing from the
chain is rejected with the not-found 400 and the state is unchanged. -/
theorem exchangeConfirm_gating_witness :
    exchangeConfirm dbA addrA 300 "0xh" true none (some "0xcccc")
      (fun _ => none) 0
      = (.err 400 "Transaction not found on blockchain", dbA) :=
  (exchangeConfirm_gating dbA addrA 300 "0xh" none "0xcccc" (fun _ => none) 0
    (by decide) (by decide) (by decide)).2.1 rfl

set_option maxRecDepth 10000 in
/-- C1 fails on the code: no consumed-transaction record exists, so replaying
the identical `(walletAddress, points, txHash)` confirm call while the
transaction's block is still inside the 5-minute freshness window passes
every check again and debits a second time. Starting from balance 1000 and
confirming 300 points against the same transaction hash twice, the first
call debits to 700 and the second identical call debits again to 400. -/
theorem exchangeConfirm_replay_double_debit :
    (exchangeConfirm dbA addrA 300 "0xhash" true (some receiptA)
        (some "0xcccc") (fun _ => some 599990) 600000000).1
      = ApiResult.ok 700 ∧
    (exchangeConfirm (exchangeConfirm dbA addrA 300 "0xhash" true
          (some receiptA) (some "0xcccc") (fun _ => some 599990)
          600000000).2
        addrA 300 "0xhash" true (some receiptA) (some "0xcccc")
        (fun _ => some 599990) 600000000).1
      = ApiResult.ok 400 ∧
    ((getUserByUsername (exchangeConfirm (exchangeConfirm dbA addrA 300
          "0xhash" true (some receiptA) (some "0xcccc")
          (fun _ => some 599990) 600000000).2
        addrA 300 "0xhash" true (some receiptA) (some "0xcccc")
        (fun _ => some 599990) 600000000).2 addrA).map
      (fun u => u.tokenBalance)) = some 400 := by
  refine ⟨?_, ?_, ?_⟩
  · with_unfolding_all decide
  · with_unfolding_all decide
  · with_unfolding_all decide

/-- C5: daily news-article cap. For a user that exists and passes the sybil
gate (no conflicting news binding for the IP, device cap not exceeded), the
news-claim handler behaves as follows on `day`: a repeat claim of an
already-claimed article is rejected with the already-claimed error and an
unchanged state, regardless of how many claims were made that day (the check
precedes the daily-limit check); a distinct article with 3 same-day `news-`
claims already present is rejected with the daily-limit error and an
unchanged state; a distinct article with fewer than 3 same-day `news-`
claims succeeds, granting exactly 10 points and inserting exactly one claim
record. The count is indexed by the UTC day, so on the next day it restarts
at 0 and claiming succeeds again. -/
theorem news_daily_cap (s : DbState) (w aid ip : String) (day : Nat) (u : User)
    (haid : aid ≠ "")
    (hu : getUserByUsername s w = some u)
    (hbind : (match getIpBinding s ip "news" with
      | some b => !(normalizeAddress (some b.walletAddress)
          == normalizeAddress (some w))
      | none => false) = false)
    (hdev : (getWalletBindings s w "news").length < 5 ∨
      (getWalletBindings s w "news").any (fun b => b.ipAddress == ip) = true) :
    (∀ c, getUserClaimForArticle s u.id ("news-" ++ aid) = some c →
      newsClaim s w aid true ip day
        = (.err 400 "You have already claimed this article", s)) ∧
    (getUserClaimForArticle s u.id ("news-" ++ aid) = none →
      3 ≤ ((getUserDailyClaims s u.id day).filter
        (fun c => strStarts c.articleId "news-")).length →
      newsClaim s w aid true ip day
        = (.err 400 "You have already claimed 3 news articles today", s)) ∧
    (getUserClaimForArticle s u.id ("news-" ++ aid) = none →
      ((getUserDailyClaims s u.id day).filter
        (fun c => strStarts c.articleId "news-")).length < 3 →
      newsClaim s w aid true ip day
        = (.ok { pointsEarned := 10, newBalance := u.tokenBalance + 10,
                 claimedCount := ((getUserDailyClaims s u.id day).filter
                   (fun c => strStarts c.articleId "news-")).length + 1,
                 remaining := 2 - (((getUserDailyClaims s u.id day).filter
                   (fun c => strStarts c.articleId "news-")).length : Int) },
          if (getIpBinding s ip "news").isNone then
            createIpBinding (updateUserTokens (createUserClaim s
              { userId := u.id, articleId := "news-" ++ aid, tokensEarned := 10, claimedDay := day })
              u.id (u.tokenBalance + 10) (u.dailyClaims + 1))
              { ipAddress := ip, bindingType := "news", walletAddress := normalizeAddress (some w), boundAt := day }
          else updateUserTokens (createUserClaim s
            { userId := u.id, articleId := "news-" ++ aid, tokensEarned := 10, claimedDay := day })
            u.id (u.tokenBalance + 10) (u.dailyClaims + 1))) := by
  have hg : getOrCreateUser s w = (u, s) := by
    unfold getOrCreateUser
    rw [hu]
  have hdev2 : ¬(5 ≤ (getWalletBindings s w "news").length ∧
      ¬((getWalletBindings s w "news").any (fun b => b.ipAddress == ip) = true)) := by
    rcases hdev with hlen | hany
    · intro hc
      omega
    · intro hc
      exact hc.2 hany
  have hred : newsClaim s w aid true ip day
      = (match getUserClaimForArticle s u.id ("news-" ++ aid) with
        | some _ => (ApiResult.err 400 "You have already claimed this article", s)
        | none =>
          if 3 ≤ ((getUserDailyClaims s u.id day).filter
              (fun c => strStarts c.articleId "news-")).length then
            (ApiResult.err 400 "You have already claimed 3 news articles today", s)
          else
            (ApiResult.ok { pointsEarned := 10, newBalance := u.tokenBalance + 10,
                            claimedCount := ((getUserDailyClaims s u.id day).filter
                              (fun c => strStarts c.articleId "news-")).length + 1,
                            remaining := 2 - (((getUserDailyClaims s u.id day).filter
                              (fun c => strStarts c.articleId "news-")).length : Int) },
            if (getIpBinding s ip "news").isNone then
              createIpBinding (updateUserTokens (createUserClaim s
                { userId := u.id, articleId := "news-" ++ aid, tokensEarned := 10, claimedDay := day })
                u.id (u.tokenBalance + 10) (u.dailyClaims + 1))
                { ipAddress := ip, bindingType := "news", walletAddress := normalizeAddress (some w), boundAt := day }
            else updateUserTokens (createUserClaim s
              { userId := u.id, articleId := "news-" ++ aid, tokensEarned := 10, claimedDay := day })
              u.id (u.tokenBalance + 10) (u.dailyClaims + 1))) := by
    unfold newsClaim
    rw [hg]
    dsimp only
    rw [if_neg haid, if_neg (by simp), if_neg (by simp [hbind]), if_neg hdev2]
  refine ⟨?_, ?_, ?_⟩
  · intro c hc
    rw [hred, hc]
  · intro hnone h3
    rw [hred, hnone]
    dsimp only
    rw [if_pos h3]
  · intro hnone hcnt
    rw [hred, hnone]
    dsimp only
    rw [if_neg (by omega)]

/-- Witness for C5: the fourth distinct article on the same day is rejected
with the daily-limit error and the state is unchanged. -/
theorem news_daily_cap_witness :
    newsClaim dbC5 addrA "a4" true "1.2.3.4" 100
      = (.err 400 "You have already claimed 3 news articles today", dbC5) :=
  (news_daily_cap dbC5 addrA "a4" "1.2.3.4" 100 userA (by decide) (by decide)
    (by decide) (Or.inl (by decide))).2.1 (by decide) (by decide)

/-- C9: settlement win rule and payout ordering. For a due pending
prediction with a positive entry price and an available nonzero exit price,
one settlement step marks the prediction `won` exactly when the percentage
change from entry to exit meets-or-exceeds 5 in the predicted direction
(exactly +5 percent counts as a win for `up`, exactly -5 percent for
`down`), and on a win credits `stake * multiplier` to the user's balance
exactly once while recording the payout; when the condition is not met it
marks the prediction `lost` with payout 0 and touches no balance; and when
the payout balance-write fails a won prediction is left completely
untouched — still pending, nothing credited. -/
theorem settlement_win_rule (s : DbState) (pred : Prediction)
    (prices : String → Option Rat) (now : Nat) (u : User) (exitPrice : Rat)
    (hdue : pred.settlementDate ≤ now)
    (hentry : 0 < pred.entryPrice)
    (hprice : prices pred.symbol = some exitPrice)
    (hpx : exitPrice ≠ 0)
    (hu : getUserByUsername s pred.walletAddress = some u)
    (hnb : 0 ≤ u.tokenBalance + pred.betAmount * pred.multiplier) :
    ((pred.direction = "up" ∧
        5 ≤ (exitPrice - pred.entryPrice) / pred.entryPrice * 100) ∨
      (pred.direction = "down" ∧
        (exitPrice - pred.entryPrice) / pred.entryPrice * 100 ≤ -5) →
      settleOne s pred prices now true
        = updatePredictionStatus
            (updateUserTokens s u.id
              (u.tokenBalance + pred.betAmount * pred.multiplier) u.dailyClaims)
            pred.id "won" exitPrice (pred.betAmount * pred.multiplier)) ∧
    (¬((pred.direction = "up" ∧
        5 ≤ (exitPrice - pred.entryPrice) / pred.entryPrice * 100) ∨
      (pred.direction = "down" ∧
        (exitPrice - pred.entryPrice) / pred.entryPrice * 100 ≤ -5)) →
      settleOne s pred prices now true
        = updatePredictionStatus s pred.id "lost" exitPrice 0) ∧
    ((pred.direction = "up" ∧
        5 ≤ (exitPrice - pred.entryPrice) / pred.entryPrice * 100) ∨
      (pred.direction = "down" ∧
        (exitPrice - pred.entryPrice) / pred.entryPrice * 100 ≤ -5) →
      settleOne s pred prices now false = s) := by
  have hb : ((pred.direction == "up" &&
      decide (5 ≤ (exitPrice - pred.entryPrice) / pred.entryPrice * 100)) ||
      (pred.direction == "down" &&
      decide ((exitPrice - pred.entryPrice) / pred.entryPrice * 100 ≤ -5))) = true
      ↔ ((pred.direction = "up" ∧
          5 ≤ (exitPrice - pred.entryPrice) / pred.entryPrice * 100) ∨
        (pred.direction = "down" ∧
          (exitPrice - pred.entryPrice) / pred.entryPrice * 100 ≤ -5)) := by
    simp
  refine ⟨?_, ?_, ?_⟩
  · intro hw
    have heq := hb.mpr hw
    unfold settleOne
    rw [if_neg (by omega), hprice]
    dsimp only
    rw [if_neg (by simp [hpx]), if_neg (not_le.mpr hentry)]
    simp only [heq, eq_self_iff_true, if_true]
    rw [hu]
    dsimp only
    rw [if_neg (by omega), if_neg (by simp)]
  · intro hnw
    have heqf : ((pred.direction == "up" &&
        decide (5 ≤ (exitPrice - pred.entryPrice) / pred.entryPrice * 100)) ||
        (pred.direction == "down" &&
        decide ((exitPrice - pred.entryPrice) / pred.entryPrice * 100 ≤ -5)))
        = false := by
      rcases Bool.eq_false_or_eq_true ((pred.direction == "up" &&
        decide (5 ≤ (exitPrice - pred.entryPrice) / pred.entryPrice * 100)) ||
        (pred.direction == "down" &&
        decide ((exitPrice - pred.entryPrice) / pred.entryPrice * 100 ≤ -5)))
        with h | h
      · exact absurd (hb.mp h) hnw
      · exact h
    unfold settleOne
    rw [if_neg (by omega), hprice]
    dsimp only
    rw [if_neg (by simp [hpx]), if_neg (not_le.mpr hentry)]
    simp only [heqf, Bool.false_eq_true, if_false]
  · intro hw
    have heq := hb.mpr hw
    unfold settleOne
    rw [if_neg (by omega), hprice]
    dsimp only
    rw [if_neg (by simp [hpx]), if_neg (not_le.mpr hentry)]
    simp only [heq, eq_self_iff_true, if_true]
    rw [hu]
    dsimp only
    rw [if_neg (by omega), if_pos (by decide)]

/-- Witness for C9 at the exact +5 percent boundary: exit 52500 from entry
50000 settles the up-prediction as won with payout 200 credited. -/
theorem settlement_win_rule_witness :
    settleOne dbC9 predC9
        (fun sym => if sym == "BTC" then some 52500 else none) 60 true
      = updatePredictionStatus
          (updateUserTokens dbC9 userA.id
            (userA.tokenBalance + predC9.betAmount * predC9.multiplier)
            userA.dailyClaims)
          predC9.id "won" 52500 (predC9.betAmount * predC9.multiplier) :=
  (settlement_win_rule dbC9 predC9
    (fun sym => if sym == "BTC" then some 52500 else none) 60 userA 52500
    (by decide) (by decide) (by decide)
    (by decide) (by decide) (by decide)).1
    (Or.inl ⟨rfl, by norm_num [predC9]⟩)

end ChainReads
